import Mathlib

/-! Verification of `WeightOnlyGroupwiseQuantMatmulPlugin`.

A shallow embedding of
`cpp/tensorrt_llm/plugins/weightOnlyGroupwiseQuantMatmulPlugin/weightOnlyGroupwiseQuantMatmulPlugin.cpp`
and theorems about its configuration, shape inference, workspace sizing, dispatch and
serialization code.

Conventions of the embedding.
* A C++ `int` is an `Int`; every `int` multiplication goes through `mulInt32`, which reduces
  the exact result to the 32-bit two's complement range. Index arithmetic on the input
  positions (values between 0 and 5) is exact and written with plain `+`.
* A `size_t` is a `Nat` below `2 ^ 64`; a pointer is a `Nat` address, `nullptr` is `0`.
* A shape (`Dims`, `DimsExprs`) is the list of its first `nbDims` entries.
* Code that can throw, abort or read out of bounds returns `Exec α`.
-/

namespace TensorRTLLM

/-! ## Machine arithmetic -/

/-- Reduction of an exact integer to the range of a 32-bit two's complement `int`. -/
def wrapInt32 (x : Int) : Int := (x + 2147483648) % 4294967296 - 2147483648

/-- Multiplication of two C++ `int` values. -/
def mulInt32 (a b : Int) : Int := wrapInt32 (a * b)

/-- Range of a C++ `int`. -/
def InInt32 (x : Int) : Prop := -2147483648 ≤ x ∧ x < 2147483648

instance (x : Int) : Decidable (InInt32 x) := by unfold InInt32; infer_instance

/-- Conversion of a C++ `int` to `size_t` (64-bit, modular). -/
def toSizeT (x : Int) : Nat := (x % 18446744073709551616).toNat

/-- Reduction of an exact natural number to the range of `size_t`. -/
def wrapSizeT (x : Nat) : Nat := x % 18446744073709551616

/-- Conversion of a `size_t` to a C++ `int`. -/
def sizeTToInt (x : Nat) : Int := wrapInt32 (Int.ofNat x)

/-- Number of set bits among the low 32 bits of a natural number. -/
def popcount (n : Nat) : Nat := ((List.range 32).map (fun i => n / 2 ^ i % 2)).sum

/-! ## Faults -/

/-- Ways in which the embedded code can fail to run to its end.
`pluginAssert` is the `std::exception` thrown by a failing `PLUGIN_ASSERT`;
`terminate` is such an exception escaping a `noexcept` function;
`abort` is a failing C `assert`;
`outOfBounds` is a read outside an array or past the rank of a shape. -/
inductive Fault where
  | pluginAssert
  | terminate
  | abort
  | outOfBounds
  deriving DecidableEq, Repr

/-- Result of running embedded code. -/
abbrev Exec (α : Type) := Except Fault α

/-- Modelled from the spec: the macro `PLUGIN_ASSERT` is declared outside this file; a
failing assertion raises an error that the surrounding `try`/`catch` blocks catch. -/
def PLUGIN_ASSERT (cond : Bool) : Exec Unit :=
  if cond then .ok () else .error Fault.pluginAssert

/-- The block `try { return body; } catch (const std::exception& e) { caughtError(e); }`
followed by `return nullptr;`: the error of a failing `PLUGIN_ASSERT` is caught and the
result is `none`; other faults are not exceptions and are not caught. -/
def tryCatch {α : Type} (body : Exec α) : Exec (Option α) :=
  match body with
  | .ok a => .ok (some a)
  | .error Fault.pluginAssert => .ok none
  | .error f => .error f

/-- Read of element `i` of a C array given by the list of its elements. -/
def readAt {α : Type} (xs : List α) (i : Int) : Exec α :=
  if i < 0 then .error Fault.outOfBounds
  else match xs[i.toNat]? with
    | some x => .ok x
    | none => .error Fault.outOfBounds

/-! ## Types of the host interface -/

/-- The enumeration `nvinfer1::DataType`, given by its underlying 32-bit value. -/
structure DataType where
  val : Int
  deriving DecidableEq, Repr

/-- The enumerator `nvinfer1::DataType::kFLOAT` (value 0 in the host library). -/
def DataType.kFLOAT : DataType := ⟨0⟩
/-- The enumerator `nvinfer1::DataType::kHALF` (value 1 in the host library). -/
def DataType.kHALF : DataType := ⟨1⟩

/-- The enumerator `nvinfer1::DataType::kINT8` (value 2 in the host library). -/
def DataType.kINT8 : DataType := ⟨2⟩
/-- The enumerator `nvinfer1::DataType::kINT32` (value 3 in the host library). -/
def DataType.kINT32 : DataType := ⟨3⟩
/-- The enumerator `nvinfer1::DataType::kUINT8` (value 5 in the host library). -/
def DataType.kUINT8 : DataType := ⟨5⟩

/-- The enumeration `nvinfer1::TensorFormat`, given by its underlying value. -/
structure TensorFormat where
  val : Int
  deriving DecidableEq, Repr

/-- The enumerator `nvinfer1::TensorFormat::kLINEAR`. -/
def TensorFormat.kLINEAR : TensorFormat := ⟨0⟩

/-- The enumeration `nvinfer1::PluginFieldType`. -/
inductive PluginFieldType where
  | kFLOAT16 | kFLOAT32 | kFLOAT64 | kINT8 | kINT16 | kINT32 | kCHAR | kDIMS | kUNKNOWN
  deriving DecidableEq, Repr

/-- A `nvinfer1::PluginField` whose `data` points to one 32-bit value. -/
structure PluginField where
  name : String
  data : Int
  type : PluginFieldType
  deriving DecidableEq, Repr

/-- A dimension expression (`nvinfer1::IDimensionExpr`): a build-time constant or a
placeholder that is resolved at run time. -/
inductive DimExpr where
  | constant (value : Int)
  | symbolic (id : Nat)
  deriving DecidableEq, Repr

/-- The method `IDimensionExpr::getConstantValue` of the host library: the value of a
constant, and the least 32-bit integer for an expression that is not a constant. -/
def DimExpr.getConstantValue : DimExpr → Int
  | .constant v => v
  | .symbolic _ => -2147483648

/-- Value of a dimension expression once the placeholders are resolved by `env`. -/
def DimExpr.eval (env : Nat → Int) : DimExpr → Int
  | .constant v => v
  | .symbolic id => env id

/-- A symbolic shape `nvinfer1::DimsExprs`: the entries `d[0] .. d[nbDims - 1]`. -/
abbrev DimsExprs := List DimExpr

/-- A concrete shape `nvinfer1::Dims`: the entries `d[0] .. d[nbDims - 1]`. -/
abbrev Dims := List Int

/-- The descriptor `nvinfer1::PluginTensorDesc`. -/
structure PluginTensorDesc where
  dims : Dims
  type : DataType
  format : TensorFormat
  deriving DecidableEq, Repr

/-- The descriptor `nvinfer1::DynamicPluginTensorDesc` (the `min` shape is not read). -/
structure DynamicPluginTensorDesc where
  desc : PluginTensorDesc
  max : Dims
  deriving DecidableEq, Repr

/-- A device or host address; `0` is `nullptr`. -/
abbrev Ptr := Nat

/-- The null pointer. -/
def nullptr : Ptr := 0

/-! ## Constants of the plugin header -/

/-- Modelled from the spec: the flag constants are declared in the plugin header, which is
not part of the sources; the spec gives BIAS=1, ZERO=2, PRE_SCALE=4, in agreement with the
comment `quant_algo = pre_quant_scale * 4 + zero * 2 + bias` in `init`. -/
def BIAS : Int := 1
/-- Modelled from the spec: see `BIAS`. -/
def ZER0 : Int := 2
/-- Modelled from the spec: see `BIAS`. -/
def PRE_SCALE_QUANT : Int := 4

/-- The C++ test `(quant_algo & flag)` used as a condition. -/
def hasFlag (quant_algo flag : Int) : Bool := Int.land quant_algo flag != 0

/-- The two instantiations of `CutlassFpAIntBGemmRunner` that `init` can create. -/
inductive WeightOnlyQuantOp where
  | FINEGRAINED_SCALE_AND_ZEROS
  | FINEGRAINED_SCALE_ONLY
  deriving DecidableEq, Repr

/-- The method `getWorkspaceSize(m, n, k)` of the gemm runners, which are defined outside
this file: a `size_t` for each runner and problem size. -/
abbrev RunnerWorkspaceSize := WeightOnlyQuantOp → Int → Int → Int → Nat

/-! ## The plugin -/

/-- The data members of `WeightOnlyGroupwiseQuantMatmulPlugin`. The member
`m_workspaceMaxSize` is `none` until `configurePlugin` assigns it. -/
structure WeightOnlyGroupwiseQuantMatmulPlugin where
  mType : DataType
  mQuantAlgo : Int
  mGroupSize : Int
  mPreQuantScaleInputIdx : Int
  mWeightInputIdx : Int
  mScalesInputIdx : Int
  mZerosInputIdx : Int
  mBiasesInputIdx : Int
  m_weightOnlyGroupwiseGemmRunner : WeightOnlyQuantOp
  m_workspaceMaxSize : Option Nat
  deriving DecidableEq, Repr

namespace WeightOnlyGroupwiseQuantMatmulPlugin

/-- The method `init`: stores the configuration, derives the input positions and creates
the gemm runner; fails for a type other than `kHALF`. -/
def init (type : DataType) (quant_algo group_size : Int) :
    Exec WeightOnlyGroupwiseQuantMatmulPlugin :=
  let mPreQuantScaleInputIdx : Int := if hasFlag quant_algo PRE_SCALE_QUANT then 1 else 0
  let mWeightInputIdx : Int := mPreQuantScaleInputIdx + 1
  let mScalesInputIdx : Int := mWeightInputIdx + 1
  let mZerosInputIdx : Int :=
    if hasFlag quant_algo ZER0 then mScalesInputIdx + 1 else mScalesInputIdx
  let mBiasesInputIdx : Int :=
    if hasFlag quant_algo BIAS then mZerosInputIdx + 1 else mZerosInputIdx
  if type = DataType.kHALF then
    .ok { mType := type, mQuantAlgo := quant_algo, mGroupSize := group_size,
          mPreQuantScaleInputIdx := mPreQuantScaleInputIdx,
          mWeightInputIdx := mWeightInputIdx,
          mScalesInputIdx := mScalesInputIdx,
          mZerosInputIdx := mZerosInputIdx,
          mBiasesInputIdx := mBiasesInputIdx,
          m_weightOnlyGroupwiseGemmRunner :=
            if hasFlag quant_algo ZER0 then WeightOnlyQuantOp.FINEGRAINED_SCALE_AND_ZEROS
            else WeightOnlyQuantOp.FINEGRAINED_SCALE_ONLY,
          m_workspaceMaxSize := none }
  else
    -- PLUGIN_ASSERT(false)
    .error Fault.pluginAssert

/-- The constructor `WeightOnlyGroupwiseQuantMatmulPlugin(type, quant_algo, group_size)`. -/
def construct (type : DataType) (quant_algo group_size : Int) :
    Exec WeightOnlyGroupwiseQuantMatmulPlugin :=
  init type quant_algo group_size

/-! ### Serialized form -/

/-- Modelled from the spec: the helper `write` is declared outside this file; it copies a
scalar in its platform-native width and advances the cursor. These are the four bytes of a
32-bit value (little endian, two's complement). -/
def writeInt32 (v : Int) : List Nat :=
  let u := (v % 4294967296).toNat
  [u % 256, u / 256 % 256, u / 65536 % 256, u / 16777216 % 256]

/-- Modelled from the spec: the helper `read` is declared outside this file; it copies a
scalar back in the same width and advances the cursor. This is the 32-bit value at offset
`off` of the memory `data`, where `data i` is the byte at address `data + i`. The helper
does not look at the length of the buffer. -/
def readInt32 (data : Nat → Nat) (off : Nat) : Int :=
  wrapInt32 (Int.ofNat (data off % 256 + 256 * (data (off + 1) % 256)
    + 65536 * (data (off + 2) % 256) + 16777216 * (data (off + 3) % 256)))

/-- The memory that starts with the given bytes. -/
def memoryOf (bytes : List Nat) : Nat → Nat := fun i => bytes.getD i 0

/-- The size `sizeof(int)`. -/
def sizeofInt : Nat := 4
/-- The size `sizeof(nvinfer1::DataType)`. -/
def sizeofDataType : Nat := 4
/-- The size `sizeof(half)`. -/
def sizeofHalf : Nat := 2

/-- The method `getSerializationSize`. -/
def getSerializationSize (_p : WeightOnlyGroupwiseQuantMatmulPlugin) : Nat :=
  2 * sizeofInt + sizeofDataType

/-- The method `serialize`: the bytes written to the buffer, in order. -/
def serialize (p : WeightOnlyGroupwiseQuantMatmulPlugin) : Exec (List Nat) :=
  let written := writeInt32 p.mType.val ++ writeInt32 p.mQuantAlgo ++ writeInt32 p.mGroupSize
  -- assert(d == a + getSerializationSize())
  if written.length = getSerializationSize p then .ok written else .error Fault.abort

/-- The constructor `WeightOnlyGroupwiseQuantMatmulPlugin(data, length)`: `data i` is the
byte at address `data + i`. -/
def constructFromBuffer (data : Nat → Nat) (length : Nat) :
    Exec WeightOnlyGroupwiseQuantMatmulPlugin := do
  let a : Nat := 0
  let d : Nat := a
  let type : DataType := ⟨readInt32 data d⟩
  let d := d + sizeofDataType
  let quant_algo := readInt32 data d
  let d := d + sizeofInt
  let group_size := readInt32 data d
  let d := d + sizeofInt
  let p ← init type quant_algo group_size
  PLUGIN_ASSERT (d == a + length)
  pure p

/-! ### Shape inference -/

/-- The body of the `try` block of `getOutputDimensions`. -/
def getOutputDimensionsTry (p : WeightOnlyGroupwiseQuantMatmulPlugin) (outputIndex : Int)
    (inputs : List DimsExprs) (nbInputs : Int) : Exec DimsExprs := do
  PLUGIN_ASSERT (nbInputs == p.mBiasesInputIdx + 1)
  PLUGIN_ASSERT (outputIndex == 0)
  let inputs0 ← readAt inputs 0
  let nbDimsA : Int := inputs0.length
  let inputsW ← readAt inputs p.mWeightInputIdx
  let nbDimsB : Int := inputsW.length
  PLUGIN_ASSERT (decide (nbDimsA ≥ 2))
  PLUGIN_ASSERT (nbDimsB == 2)
  -- for (ii = 0; ii < nbDimsA - 1; ++ii) ret.d[ii] = inputs[0].d[ii]
  let leading := inputs0.take (nbDimsA - 1).toNat
  let w1 ← readAt inputsW 1
  pure (leading ++ [DimExpr.constant (mulInt32 w1.getConstantValue 8)])

/-- The method `getOutputDimensions`: the returned shape, and whether the `catch` block ran
(`caughtError` was called). A caught assertion failure yields the default shape
`DimsExprs{}`, which has rank 0. -/
def getOutputDimensions (p : WeightOnlyGroupwiseQuantMatmulPlugin) (outputIndex : Int)
    (inputs : List DimsExprs) (nbInputs : Int) : Exec (DimsExprs × Bool) :=
  match getOutputDimensionsTry p outputIndex inputs nbInputs with
  | .ok ret => .ok (ret, false)
  | .error Fault.pluginAssert => .ok ([], true)
  | .error f => .error f

/-- The method `supportsFormatCombination`. -/
def supportsFormatCombination (p : WeightOnlyGroupwiseQuantMatmulPlugin) (pos : Int)
    (inOut : List PluginTensorDesc) : Exec Bool :=
  if pos < p.mBiasesInputIdx + 2 then
    if pos = p.mWeightInputIdx then do
      let w ← readAt inOut p.mWeightInputIdx
      pure (w.type == DataType.kFLOAT && w.format == TensorFormat.kLINEAR)
    else do
      let d ← readAt inOut pos
      pure (d.type == p.mType && d.format == TensorFormat.kLINEAR)
  else
    -- assert(false)
    .error Fault.abort

/-! ### Workspace -/

/-- The loop `m = 1; for (ii = 0; ii < nbDims - 1; ++ii) m *= d[ii]` shared by
`configurePlugin` and `enqueue`. -/
def leadingDimsProduct (d : Dims) : Int :=
  (d.take (d.length - 1)).foldl mulInt32 1

/-- The method `configurePlugin`: the plugin with `m_workspaceMaxSize` assigned. Both the
member and the result of the runner are of type `size_t`. -/
def configurePlugin (runnerWorkspaceSize : RunnerWorkspaceSize)
    (p : WeightOnlyGroupwiseQuantMatmulPlugin) (inp : List DynamicPluginTensorDesc) :
    Exec WeightOnlyGroupwiseQuantMatmulPlugin := do
  let in0 ← readAt inp 0
  let maxM := leadingDimsProduct in0.max
  let maxK ← readAt in0.max ((in0.max.length : Int) - 1)
  let inW ← readAt inp p.mWeightInputIdx
  let w1 ← readAt inW.max 1
  let maxN := mulInt32 w1 8
  let smoothedActSize :=
    mulInt32 (mulInt32 maxM maxK) (if in0.desc.type = DataType.kFLOAT then 4 else 2)
  pure { p with m_workspaceMaxSize := some (wrapSizeT (toSizeT smoothedActSize
      + runnerWorkspaceSize p.m_weightOnlyGroupwiseGemmRunner maxM maxN maxK)) }

/-- The method `getWorkspaceSize`: the stored member, whatever the arguments are. -/
def getWorkspaceSize (p : WeightOnlyGroupwiseQuantMatmulPlugin)
    (_inputs : List PluginTensorDesc) (_nbInputs : Int)
    (_outputs : List PluginTensorDesc) (_nbOutputs : Int) : Option Nat :=
  p.m_workspaceMaxSize

/-! ### Dispatch -/

/-- A kernel launch issued by `enqueue`, with the arguments in the order of the call. -/
inductive KernelLaunch where
  | apply_per_channel_scale (smoothed_act act per_channel_scale : Ptr) (rows cols : Int)
  | groupwise_weight_only_matmul_i2f (qweight scales zeros act bias out : Ptr)
      (m n k group_size : Int)
  | gemm (A B weight_scales weight_zero_points biases C : Ptr) (m n k group_size : Int)
      (workspace_ptr : Ptr) (workspace_bytes : Int)
  deriving DecidableEq, Repr

/-- Whether a launch is one of the two matmul kernels. -/
def KernelLaunch.isMatmul : KernelLaunch → Bool
  | .apply_per_channel_scale .. => false
  | .groupwise_weight_only_matmul_i2f .. => true
  | .gemm .. => true

/-- Whether a launch is the direct (CUDA) matmul kernel. -/
def KernelLaunch.isDirect : KernelLaunch → Bool
  | .groupwise_weight_only_matmul_i2f .. => true
  | _ => false

/-- Whether a launch is the tiled (cutlass) matmul kernel. -/
def KernelLaunch.isTiled : KernelLaunch → Bool
  | .gemm .. => true
  | _ => false

/-- The problem size and group size `(m, n, k, group_size)` handed to a matmul kernel. -/
def KernelLaunch.problem : KernelLaunch → Option (Int × Int × Int × Int)
  | .apply_per_channel_scale .. => none
  | .groupwise_weight_only_matmul_i2f _ _ _ _ _ _ m n k g => some (m, n, k, g)
  | .gemm _ _ _ _ _ _ m n k g _ _ => some (m, n, k, g)

/-- What `enqueue` did: the kernels launched, in order, and the returned status. -/
structure EnqueueResult where
  launches : List KernelLaunch
  status : Int
  deriving DecidableEq, Repr

/-- The method `enqueue`. `SMALL_M_FAST_PATH` is a constant of the plugin header. -/
def enqueue (SMALL_M_FAST_PATH : Int) (runnerWorkspaceSize : RunnerWorkspaceSize)
    (p : WeightOnlyGroupwiseQuantMatmulPlugin) (inputDesc : List PluginTensorDesc)
    (inputs : List Ptr) (outputs : List Ptr) (workspace : Ptr) : Exec EnqueueResult := do
  let desc0 ← readAt inputDesc 0
  let m := leadingDimsProduct desc0.dims
  let descW ← readAt inputDesc p.mWeightInputIdx
  let n ← readAt descW.dims 1
  let k ← readAt desc0.dims ((desc0.dims.length : Int) - 1)
  let scaling : List KernelLaunch ←
    if hasFlag p.mQuantAlgo PRE_SCALE_QUANT then do
      let in0 ← readAt inputs 0
      let inPre ← readAt inputs p.mPreQuantScaleInputIdx
      pure [KernelLaunch.apply_per_channel_scale workspace in0 inPre m k]
    else pure []
  let zeros_ptr ←
    if hasFlag p.mQuantAlgo ZER0 then readAt inputs p.mZerosInputIdx else pure nullptr
  let biases_ptr ←
    if hasFlag p.mQuantAlgo BIAS then readAt inputs p.mBiasesInputIdx else pure nullptr
  let act_ptr ←
    if hasFlag p.mQuantAlgo PRE_SCALE_QUANT then pure workspace else readAt inputs 0
  if p.mType = DataType.kHALF then
    if m < SMALL_M_FAST_PATH then do
      let inW ← readAt inputs p.mWeightInputIdx
      let inS ← readAt inputs p.mScalesInputIdx
      let out0 ← readAt outputs 0
      pure { launches := scaling ++ [KernelLaunch.groupwise_weight_only_matmul_i2f
               inW inS zeros_ptr act_ptr biases_ptr out0 m (mulInt32 n 8) k p.mGroupSize],
             status := 0 }
    else do
      let ws_bytes :=
        sizeTToInt (runnerWorkspaceSize p.m_weightOnlyGroupwiseGemmRunner m n k)
      let weight_ptr ← readAt inputs p.mWeightInputIdx
      let inS ← readAt inputs p.mScalesInputIdx
      let out0 ← readAt outputs 0
      pure { launches := scaling ++ [KernelLaunch.gemm act_ptr weight_ptr inS zeros_ptr
               biases_ptr out0 m (mulInt32 n 8) k p.mGroupSize
               (wrapSizeT (workspace + wrapSizeT (toSizeT (mulInt32 m k) * sizeofHalf)))
               ws_bytes],
             status := 0 }
  else
    -- assert(false)
    .error Fault.abort

end WeightOnlyGroupwiseQuantMatmulPlugin

/-! ## The plugin creator -/

namespace WeightOnlyGroupwiseQuantMatmulPluginCreator

/-- The local variables `type`, `QuantAlgo`, `GroupSize` of `createPlugin`. -/
structure Locals where
  type : DataType
  QuantAlgo : Int
  GroupSize : Int
  deriving DecidableEq, Repr

/-- One iteration of the field loop of `createPlugin`. -/
def readField (acc : Locals) (field : PluginField) : Exec Locals :=
  if field.name = "quant_algo" then do
    PLUGIN_ASSERT (field.type == PluginFieldType.kINT32)
    pure { acc with QuantAlgo := field.data }
  else if field.name = "group_size" then do
    PLUGIN_ASSERT (field.type == PluginFieldType.kINT32)
    pure { acc with GroupSize := field.data }
  else if field.name = "type_id" then do
    PLUGIN_ASSERT (field.type == PluginFieldType.kINT32)
    pure { acc with type := ⟨field.data⟩ }
  else pure acc

/-- The field loop of `createPlugin`, started from the locals as they are. -/
def readFields : Locals → List PluginField → Exec Locals
  | acc, [] => pure acc
  | acc, field :: rest => do
    let acc ← readField acc field
    readFields acc rest

/-- The method `createPlugin`. The locals are not initialised by the code: `indeterminate`
is what they hold before the loop. An assertion that fails in the loop is outside the `try`
block of this `noexcept` function. The result `none` is the null pointer. -/
def createPlugin (indeterminate : Locals) (fc : List PluginField) :
    Exec (Option WeightOnlyGroupwiseQuantMatmulPlugin) :=
  match readFields indeterminate fc with
  | .error Fault.pluginAssert => .error Fault.terminate
  | .error f => .error f
  | .ok locals =>
    tryCatch (WeightOnlyGroupwiseQuantMatmulPlugin.construct
      locals.type locals.QuantAlgo locals.GroupSize)

/-- The method `deserializePlugin`; the result `none` is the null pointer. -/
def deserializePlugin (serialData : Nat → Nat) (serialLength : Nat) :
    Exec (Option WeightOnlyGroupwiseQuantMatmulPlugin) :=
  tryCatch (WeightOnlyGroupwiseQuantMatmulPlugin.constructFromBuffer serialData serialLength)

end WeightOnlyGroupwiseQuantMatmulPluginCreator

/-! ## Notions used to state the properties -/

open WeightOnlyGroupwiseQuantMatmulPlugin

/-- A plugin that a constructor has built: `init` returned it, up to the member
`m_workspaceMaxSize`, which `configurePlugin` assigns later. -/
def Constructed (p : WeightOnlyGroupwiseQuantMatmulPlugin) : Prop :=
  ∃ type quant_algo group_size,
    init type quant_algo group_size = .ok { p with m_workspaceMaxSize := none }

/-- The positions of the tensors that are present, in the input order documented in
`getOutputDimensions`: activations, [pre-quant scales], weights, scales, [zeros], [biases]. -/
def presentInputIndices (p : WeightOnlyGroupwiseQuantMatmulPlugin) : List Int :=
  [0] ++ (if hasFlag p.mQuantAlgo PRE_SCALE_QUANT then [p.mPreQuantScaleInputIdx] else [])
    ++ [p.mWeightInputIdx, p.mScalesInputIdx]
    ++ (if hasFlag p.mQuantAlgo ZER0 then [p.mZerosInputIdx] else [])
    ++ (if hasFlag p.mQuantAlgo BIAS then [p.mBiasesInputIdx] else [])

/-- The shape of input `i` of a call, `[]` when there is no such input. -/
def shapeOf (inputDesc : List PluginTensorDesc) (i : Nat) : Dims :=
  (inputDesc.map (fun d => d.dims)).getD i []

/-- An `enqueue` call as the host issues it: one descriptor and one buffer for each of the
`mBiasesInputIdx + 1` inputs, one output buffer, activations that have a last dimension
and weights that have a second dimension (`getOutputDimensions` accepts only activations
of rank at least 2 and weights of rank 2). -/
def ValidEnqueueCall (p : WeightOnlyGroupwiseQuantMatmulPlugin)
    (inputDesc : List PluginTensorDesc) (inputs outputs : List Ptr) : Prop :=
  (inputDesc.length : Int) = p.mBiasesInputIdx + 1 ∧ inputs.length = inputDesc.length ∧
  outputs.length = 1 ∧ 1 ≤ (shapeOf inputDesc 0).length ∧
  2 ≤ (shapeOf inputDesc p.mWeightInputIdx.toNat).length

instance (p : WeightOnlyGroupwiseQuantMatmulPlugin) (inputDesc : List PluginTensorDesc)
    (inputs outputs : List Ptr) : Decidable (ValidEnqueueCall p inputDesc inputs outputs) := by
  unfold ValidEnqueueCall; infer_instance

/-- The exact product of all activation dimensions except the last. -/
def activationRows (inputDesc : List PluginTensorDesc) : Int :=
  (shapeOf inputDesc 0).dropLast.prod

/-- The last activation dimension. -/
def activationCols (inputDesc : List PluginTensorDesc) : Int :=
  (shapeOf inputDesc 0).getLastD 0

/-- The second (packed) dimension of the weights. -/
def weightsPackedCols (p : WeightOnlyGroupwiseQuantMatmulPlugin)
    (inputDesc : List PluginTensorDesc) : Int :=
  (shapeOf inputDesc p.mWeightInputIdx.toNat).getD 1 0

/-- The element `inputs[i]` of the buffer list of a call, `nullptr` when there is none. -/
def inputAt (inputs : List Ptr) (i : Int) : Ptr := inputs.getD i.toNat nullptr

/-- The weight pointer handed to a matmul kernel. -/
def WeightOnlyGroupwiseQuantMatmulPlugin.KernelLaunch.weightPtr : KernelLaunch → Option Ptr
  | .apply_per_channel_scale .. => none
  | .groupwise_weight_only_matmul_i2f qweight _ _ _ _ _ _ _ _ _ => some qweight
  | .gemm _ B _ _ _ _ _ _ _ _ _ _ => some B

/-- The scale pointer handed to a matmul kernel. -/
def WeightOnlyGroupwiseQuantMatmulPlugin.KernelLaunch.scalesPtr : KernelLaunch → Option Ptr
  | .apply_per_channel_scale .. => none
  | .groupwise_weight_only_matmul_i2f _ scales _ _ _ _ _ _ _ _ => some scales
  | .gemm _ _ weight_scales _ _ _ _ _ _ _ _ _ => some weight_scales

/-- The zero-point pointer handed to a matmul kernel. -/
def WeightOnlyGroupwiseQuantMatmulPlugin.KernelLaunch.zerosPtr : KernelLaunch → Option Ptr
  | .apply_per_channel_scale .. => none
  | .groupwise_weight_only_matmul_i2f _ _ zeros _ _ _ _ _ _ _ => some zeros
  | .gemm _ _ _ weight_zero_points _ _ _ _ _ _ _ _ => some weight_zero_points

/-- The bias pointer handed to a matmul kernel. -/
def WeightOnlyGroupwiseQuantMatmulPlugin.KernelLaunch.biasPtr : KernelLaunch → Option Ptr
  | .apply_per_channel_scale .. => none
  | .groupwise_weight_only_matmul_i2f _ _ _ _ bias _ _ _ _ _ => some bias
  | .gemm _ _ _ _ biases _ _ _ _ _ _ _ => some biases

/-- The activation pointer handed to a matmul kernel. -/
def WeightOnlyGroupwiseQuantMatmulPlugin.KernelLaunch.actPtr : KernelLaunch → Option Ptr
  | .apply_per_channel_scale .. => none
  | .groupwise_weight_only_matmul_i2f _ _ _ act _ _ _ _ _ _ => some act
  | .gemm A _ _ _ _ _ _ _ _ _ _ _ => some A

/-- The scratch region handed to the tiled kernel: its start and its declared size. -/
def WeightOnlyGroupwiseQuantMatmulPlugin.KernelLaunch.scratch : KernelLaunch → Option (Ptr × Int)
  | .gemm _ _ _ _ _ _ _ _ _ _ workspace_ptr workspace_bytes =>
    some (workspace_ptr, workspace_bytes)
  | _ => none

/-- Whether a type of the host library is an integer type. -/
def isIntegerType (t : DataType) : Bool :=
  t == DataType.kINT8 || t == DataType.kINT32 || t == DataType.kUINT8

/-- Every dimension of `d` is non-negative and at most the corresponding dimension of
`mx`, and the two shapes have the same rank. -/
def DimsWithin (d mx : Dims) : Prop :=
  List.Forall₂ (fun a b => 0 ≤ a ∧ a ≤ b) d mx

instance (d mx : Dims) : Decidable (DimsWithin d mx) := by
  unfold DimsWithin; infer_instance

/-- The exact product of all but the last dimension of the maximum activation shape. -/
def maxM (in0 : DynamicPluginTensorDesc) : Int := in0.max.dropLast.prod

/-- The last dimension of the maximum activation shape. -/
def maxK (in0 : DynamicPluginTensorDesc) : Int := in0.max.getLastD 0

/-- The exact value of 8 times the second dimension of the maximum weights shape. -/
def maxN (inW : DynamicPluginTensorDesc) : Int := 8 * inW.max.getD 1 0

/-- The activation element size that `configurePlugin` uses. -/
def elementSize (in0 : DynamicPluginTensorDesc) : Int :=
  if in0.desc.type = DataType.kFLOAT then 4 else 2

/-- The exact value of `maxM * maxK * elementSize + kernelWorkspaceSize(maxM, maxN, maxK)`. -/
def exactWorkspaceSize (rws : RunnerWorkspaceSize) (p : WeightOnlyGroupwiseQuantMatmulPlugin)
    (in0 inW : DynamicPluginTensorDesc) : Int :=
  maxM in0 * maxK in0 * elementSize in0
    + (rws p.m_weightOnlyGroupwiseGemmRunner (maxM in0) (maxN inW) (maxK in0) : Int)

/-- No integer of `configurePlugin` overflows: the `int` values `maxM`, `maxN`,
`maxM * maxK`, `maxM * maxK * elementSize` fit in an `int` and the sum is a `size_t`. -/
def NoOverflowAtConfigure (rws : RunnerWorkspaceSize)
    (p : WeightOnlyGroupwiseQuantMatmulPlugin) (in0 inW : DynamicPluginTensorDesc) : Prop :=
  InInt32 (maxM in0) ∧ InInt32 (maxN inW) ∧ InInt32 (maxM in0 * maxK in0) ∧
  InInt32 (maxM in0 * maxK in0 * elementSize in0) ∧ 0 ≤ exactWorkspaceSize rws p in0 inW ∧
  exactWorkspaceSize rws p in0 inW < 18446744073709551616

instance (rws : RunnerWorkspaceSize) (p : WeightOnlyGroupwiseQuantMatmulPlugin)
    (in0 inW : DynamicPluginTensorDesc) : Decidable (NoOverflowAtConfigure rws p in0 inW) := by
  unfold NoOverflowAtConfigure; infer_instance

/-- The value of the last field called `name` of a field collection, if there is one. -/
def fieldValue (name : String) : List PluginField → Option Int
  | [] => none
  | field :: rest =>
    match fieldValue name rest with
    | some v => some v
    | none => if field.name = name then some field.data else none

/-- The matmul launches among the kernels that a call issued. -/
def matmulLaunches (r : EnqueueResult) : List KernelLaunch :=
  r.launches.filter KernelLaunch.isMatmul

/-! ## Properties -/

/-! ### Auxiliary facts -/

theorem init_fields {type : DataType} {quant_algo group_size : Int}
    {p : WeightOnlyGroupwiseQuantMatmulPlugin} (h : init type quant_algo group_size = .ok p) :
    type = DataType.kHALF ∧ p.mType = type ∧ p.mQuantAlgo = quant_algo ∧
    p.mGroupSize = group_size ∧
    p.mPreQuantScaleInputIdx = (if hasFlag quant_algo PRE_SCALE_QUANT then 1 else 0) ∧
    p.mWeightInputIdx = p.mPreQuantScaleInputIdx + 1 ∧
    p.mScalesInputIdx = p.mWeightInputIdx + 1 ∧
    p.mZerosInputIdx
      = (if hasFlag quant_algo ZER0 then p.mScalesInputIdx + 1 else p.mScalesInputIdx) ∧
    p.mBiasesInputIdx
      = (if hasFlag quant_algo BIAS then p.mZerosInputIdx + 1 else p.mZerosInputIdx) ∧
    p.m_weightOnlyGroupwiseGemmRunner
      = (if hasFlag quant_algo ZER0 then WeightOnlyQuantOp.FINEGRAINED_SCALE_AND_ZEROS
         else WeightOnlyQuantOp.FINEGRAINED_SCALE_ONLY) ∧
    p.m_workspaceMaxSize = none := by
  simp only [init] at h
  by_cases ht : type = DataType.kHALF
  · rw [if_pos ht] at h
    cases h
    exact ⟨ht, rfl, rfl, rfl, rfl, rfl, rfl, rfl, rfl, rfl, rfl⟩
  · rw [if_neg ht] at h
    cases h

theorem init_kHALF_isOk (quant_algo group_size : Int) :
    ∃ p, init DataType.kHALF quant_algo group_size = .ok p := by
  simp only [init]
  rw [if_pos trivial]
  exact ⟨_, rfl⟩

theorem init_error_of_ne {type : DataType} (ht : type ≠ DataType.kHALF)
    (quant_algo group_size : Int) :
    init type quant_algo group_size = .error Fault.pluginAssert := by
  simp only [init]
  rw [if_neg ht]

theorem getOutputDimensions_of_count_ne (p : WeightOnlyGroupwiseQuantMatmulPlugin)
    (outputIndex : Int) (inputs : List DimsExprs) (nbInputs : Int)
    (h : nbInputs ≠ p.mBiasesInputIdx + 1) :
    getOutputDimensions p outputIndex inputs nbInputs = .ok ([], true) := by
  have hb : (nbInputs == p.mBiasesInputIdx + 1) = false := by simpa using h
  simp [getOutputDimensions, getOutputDimensionsTry, PLUGIN_ASSERT, hb, bind, Except.bind]

theorem readAt_eq_ok_iff {α : Type} (xs : List α) (i : Int) (x : α) :
    readAt xs i = .ok x ↔ 0 ≤ i ∧ xs[i.toNat]? = some x := by
  unfold readAt
  by_cases hi : i < 0
  · rw [if_pos hi]
    constructor
    · intro h; cases h
    · intro h; omega
  · rw [if_neg hi]
    cases hx : xs[i.toNat]? with
    | none => simp
    | some y =>
      constructor
      · intro h
        cases h
        exact ⟨by omega, rfl⟩
      · intro h
        cases h.2
        rfl

theorem readAt_of_lt {α : Type} (xs : List α) (i : Int) (h0 : 0 ≤ i)
    (hlt : i < (xs.length : Int)) : ∃ x, readAt xs i = .ok x := by
  have hlt2 : i.toNat < xs.length := by omega
  exact ⟨xs.get ⟨i.toNat, hlt2⟩, (readAt_eq_ok_iff xs i _).2 ⟨h0, List.getElem?_eq_getElem hlt2⟩⟩

theorem readAt_length_gt {α : Type} {xs : List α} {i : Int} {x : α}
    (h : readAt xs i = .ok x) : 0 ≤ i ∧ i < (xs.length : Int) := by
  obtain ⟨h0, hget⟩ := (readAt_eq_ok_iff xs i x).1 h
  obtain ⟨hlt, -⟩ := List.getElem?_eq_some.1 hget
  exact ⟨h0, by omega⟩

theorem constructed_fields {p : WeightOnlyGroupwiseQuantMatmulPlugin} (hp : Constructed p) :
    p.mType = DataType.kHALF ∧
    p.mPreQuantScaleInputIdx = (if hasFlag p.mQuantAlgo PRE_SCALE_QUANT then 1 else 0) ∧
    p.mWeightInputIdx = p.mPreQuantScaleInputIdx + 1 ∧
    p.mScalesInputIdx = p.mWeightInputIdx + 1 ∧
    p.mZerosInputIdx
      = (if hasFlag p.mQuantAlgo ZER0 then p.mScalesInputIdx + 1 else p.mScalesInputIdx) ∧
    p.mBiasesInputIdx
      = (if hasFlag p.mQuantAlgo BIAS then p.mZerosInputIdx + 1 else p.mZerosInputIdx) ∧
    p.m_weightOnlyGroupwiseGemmRunner
      = (if hasFlag p.mQuantAlgo ZER0 then WeightOnlyQuantOp.FINEGRAINED_SCALE_AND_ZEROS
         else WeightOnlyQuantOp.FINEGRAINED_SCALE_ONLY) := by
  obtain ⟨type, quant_algo, group_size, h⟩ := hp
  obtain ⟨ht, h0, hq, -, h1, h2, h3, h4, h5, h6, -⟩ := init_fields h
  have hq2 : quant_algo = p.mQuantAlgo := hq.symm
  subst hq2
  exact ⟨h0.trans ht, h1, h2, h3, h4, h5, h6⟩

theorem constructed_index_bounds {p : WeightOnlyGroupwiseQuantMatmulPlugin}
    (hp : Constructed p) :
    0 ≤ p.mPreQuantScaleInputIdx ∧ p.mPreQuantScaleInputIdx < p.mWeightInputIdx ∧
    p.mWeightInputIdx < p.mScalesInputIdx ∧ p.mScalesInputIdx ≤ p.mZerosInputIdx ∧
    p.mZerosInputIdx ≤ p.mBiasesInputIdx := by
  obtain ⟨-, h1, h2, h3, h4, h5, -⟩ := constructed_fields hp
  rw [h5, h4, h3, h2, h1]
  cases hasFlag p.mQuantAlgo PRE_SCALE_QUANT <;> cases hasFlag p.mQuantAlgo ZER0 <;>
    cases hasFlag p.mQuantAlgo BIAS <;> decide

theorem constructed_of_init {type : DataType} {quant_algo group_size : Int}
    {p : WeightOnlyGroupwiseQuantMatmulPlugin} (h : init type quant_algo group_size = .ok p) :
    Constructed p := by
  refine ⟨type, quant_algo, group_size, ?_⟩
  have hw : p.m_workspaceMaxSize = none := (init_fields h).2.2.2.2.2.2.2.2.2.2
  have hp : { p with m_workspaceMaxSize := none } = p := by
    cases p
    simp only at hw
    subst hw
    rfl
  rw [hp]
  exact h

theorem getOutputDimensionsTry_eq (p : WeightOnlyGroupwiseQuantMatmulPlugin)
    (inputs : List DimsExprs) (acts weights : DimsExprs) (w1 : DimExpr)
    (hn : (inputs.length : Int) = p.mBiasesInputIdx + 1)
    (ha : readAt inputs 0 = .ok acts) (hw : readAt inputs p.mWeightInputIdx = .ok weights)
    (hr : 2 ≤ acts.length) (hw2 : weights.length = 2) (h1 : readAt weights 1 = .ok w1) :
    getOutputDimensionsTry p 0 inputs inputs.length
      = .ok (acts.take (acts.length - 1)
          ++ [DimExpr.constant (mulInt32 w1.getConstantValue 8)]) := by
  have hr2 : (2 : Int) ≤ (acts.length : Int) := by omega
  simp [getOutputDimensionsTry, PLUGIN_ASSERT, hn, ha, hw, hw2, h1, hr2, bind, Except.bind,
    pure, Except.pure]

/-! ### C1 -/

/-- C1. For every `quant_algo` in `[0, 8)`, `init` succeeds for the supported type, and any
plugin it returns has `mBiasesInputIdx + 1 = 3 + popcount(quant_algo)`; this is the count
that `getOutputDimensions` requires, since with any other `nbInputs` it reports an error. -/
theorem expected_input_count_eq_three_add_popcount (quant_algo group_size : Int)
    (h0 : 0 ≤ quant_algo) (h8 : quant_algo < 8) :
    (∃ p, init DataType.kHALF quant_algo group_size = .ok p) ∧
    ∀ type p, init type quant_algo group_size = .ok p →
      p.mBiasesInputIdx + 1 = 3 + (popcount quant_algo.toNat : Int) ∧
      ∀ outputIndex inputs nbInputs, nbInputs ≠ 3 + (popcount quant_algo.toNat : Int) →
        getOutputDimensions p outputIndex inputs nbInputs = .ok ([], true) := by
  refine ⟨init_kHALF_isOk _ _, ?_⟩
  intro type p h
  obtain ⟨-, -, -, -, h1, h2, h3, h4, h5, -, -⟩ := init_fields h
  have hcount : p.mBiasesInputIdx + 1 = 3 + (popcount quant_algo.toNat : Int) := by
    rw [h5, h4, h3, h2, h1]
    interval_cases quant_algo <;> decide
  refine ⟨hcount, ?_⟩
  intro outputIndex inputs nbInputs hne
  exact getOutputDimensions_of_count_ne p outputIndex inputs nbInputs (hcount ▸ hne)

/-- C1 at `quant_algo = 0` and `quant_algo = 7`: three and six inputs. -/
theorem expected_input_count_witness :
    (∃ p, init DataType.kHALF 0 128 = .ok p ∧ p.mBiasesInputIdx + 1 = 3) ∧
    (∃ p, init DataType.kHALF 7 128 = .ok p ∧ p.mBiasesInputIdx + 1 = 6) := by
  obtain ⟨⟨p0, hp0⟩, h0⟩ :=
    expected_input_count_eq_three_add_popcount 0 128 (by decide) (by decide)
  obtain ⟨⟨p7, hp7⟩, h7⟩ :=
    expected_input_count_eq_three_add_popcount 7 128 (by decide) (by decide)
  exact ⟨⟨p0, hp0, (h0 _ p0 hp0).1⟩, ⟨p7, hp7, (h7 _ p7 hp7).1⟩⟩

/-! ### C2 -/

/-- C2. For every `quant_algo` (every `int`, so every value in `[0, 8)`), `init` succeeds for
the supported type, and the indices of any plugin it returns satisfy
`mPreQuantScaleInputIdx ≤ mWeightInputIdx < mScalesInputIdx ≤ mZerosInputIdx ≤ mBiasesInputIdx`;
each optional index equals the index before it in the chain (0 for the pre-quant scale)
when its flag is unset and exceeds it by one when its flag is set; the indices of the
tensors that are present are strictly increasing and are exactly
`0, 1, ..., mBiasesInputIdx`. -/
theorem derived_indices_chain (quant_algo group_size : Int) :
    (∃ p, init DataType.kHALF quant_algo group_size = .ok p) ∧
    ∀ type p, init type quant_algo group_size = .ok p →
      (p.mPreQuantScaleInputIdx ≤ p.mWeightInputIdx ∧ p.mWeightInputIdx < p.mScalesInputIdx ∧
        p.mScalesInputIdx ≤ p.mZerosInputIdx ∧ p.mZerosInputIdx ≤ p.mBiasesInputIdx) ∧
      (p.mPreQuantScaleInputIdx = if hasFlag quant_algo PRE_SCALE_QUANT then 0 + 1 else 0) ∧
      (p.mZerosInputIdx
        = if hasFlag quant_algo ZER0 then p.mScalesInputIdx + 1 else p.mScalesInputIdx) ∧
      (p.mBiasesInputIdx
        = if hasFlag quant_algo BIAS then p.mZerosInputIdx + 1 else p.mZerosInputIdx) ∧
      (presentInputIndices p).Pairwise (· < ·) ∧
      presentInputIndices p = (List.range (p.mBiasesInputIdx + 1).toNat).map Int.ofNat := by
  refine ⟨init_kHALF_isOk _ _, ?_⟩
  intro type p h
  obtain ⟨-, -, hq, -, h1, h2, h3, h4, h5, -, -⟩ := init_fields h
  have hpre : p.mPreQuantScaleInputIdx
      = if hasFlag quant_algo PRE_SCALE_QUANT then 0 + 1 else 0 := by rw [h1]; rfl
  refine ⟨?_, hpre, h4, h5, ?_⟩
  · rw [h5, h4, h3, h2, h1]
    cases hasFlag quant_algo PRE_SCALE_QUANT <;> cases hasFlag quant_algo ZER0 <;>
      cases hasFlag quant_algo BIAS <;> decide
  · simp only [presentInputIndices, hq]
    rw [h5, h4, h3, h2, h1]
    cases hasFlag quant_algo PRE_SCALE_QUANT <;> cases hasFlag quant_algo ZER0 <;>
      cases hasFlag quant_algo BIAS <;> decide

/-- C2 at `quant_algo = 5` (pre-quant scale and bias present, no zeros): the indices are
1, 2, 3, 3, 4 and the present tensors sit at positions 0, 1, 2, 3, 4. -/
theorem derived_indices_chain_witness :
    ∃ p, init DataType.kHALF 5 128 = .ok p ∧
      (p.mPreQuantScaleInputIdx, p.mWeightInputIdx, p.mScalesInputIdx, p.mZerosInputIdx,
        p.mBiasesInputIdx) = (1, 2, 3, 3, 4) ∧
      presentInputIndices p = (List.range (p.mBiasesInputIdx + 1).toNat).map Int.ofNat := by
  obtain ⟨⟨p, hp⟩, h⟩ := derived_indices_chain 5 128
  refine ⟨p, hp, ?_, (h _ p hp).2.2.2.2.2⟩
  have hp5 : init DataType.kHALF 5 128 = .ok p := hp
  simp only [init] at hp5
  rw [if_pos trivial] at hp5
  cases hp5
  decide


theorem getD_of_readAt {α : Type} {xs : List α} {i : Int} {x : α} (d : α)
    (h : readAt xs i = .ok x) : xs.getD i.toNat d = x := by
  obtain ⟨-, hget⟩ := (readAt_eq_ok_iff xs i x).1 h
  simp [List.getD, hget]

theorem getOutputDimensionsTry_rank_error (p : WeightOnlyGroupwiseQuantMatmulPlugin)
    (inputs : List DimsExprs) (acts weights : DimsExprs)
    (hn : (inputs.length : Int) = p.mBiasesInputIdx + 1)
    (ha : readAt inputs 0 = .ok acts) (hw : readAt inputs p.mWeightInputIdx = .ok weights)
    (hbad : acts.length < 2 ∨ weights.length ≠ 2) :
    getOutputDimensionsTry p 0 inputs inputs.length = .error Fault.pluginAssert := by
  by_cases hr : (2 : Int) ≤ (acts.length : Int)
  · have hw2 : weights.length ≠ 2 := by
      rcases hbad with h | h
      · omega
      · exact h
    have hw2i : ¬ ((weights.length : Int) = 2) := by omega
    simp [getOutputDimensionsTry, PLUGIN_ASSERT, hn, ha, hw, hw2i, hr, bind, Except.bind]
  · simp [getOutputDimensionsTry, PLUGIN_ASSERT, hn, ha, hw, hr, bind, Except.bind]

/-! ### C3 -/

/-- C3, as stated, fails. With `quant_algo = 0` the plugin expects three inputs. For the
activations shape `[s0, 64]` and the weights shape `[64, s1]`, where `s0` and `s1` are
placeholders resolved at run time, the preconditions hold, and the returned shape is
`[s0, 0]`: its last dimension is the constant `0`, whereas 8 times the weights' second
dimension is `256` once `s1` is resolved to `32`. -/
theorem getOutputDimensions_symbolic_weights_counterexample :
    init DataType.kHALF 0 128
      = .ok ⟨DataType.kHALF, 0, 128, 0, 1, 2, 2, 2, .FINEGRAINED_SCALE_ONLY, none⟩ ∧
    getOutputDimensions ⟨DataType.kHALF, 0, 128, 0, 1, 2, 2, 2, .FINEGRAINED_SCALE_ONLY, none⟩ 0
        [[.symbolic 0, .constant 64], [.constant 64, .symbolic 1], [.constant 1, .symbolic 2]] 3
      = .ok ([.symbolic 0, .constant 0], false) ∧
    DimExpr.eval (fun _ => 32) (.constant 0) ≠ 8 * DimExpr.eval (fun _ => 32) (.symbolic 1) := by
  refine ⟨rfl, rfl, ?_⟩
  decide

/-- C3, amended. For every plugin and every input shape list with
`nbInputs = mBiasesInputIdx + 1`, activations of rank `r ≥ 2` and weights of rank 2 whose
second dimension is the build-time constant `c`, `getOutputDimensions` for output 0 returns,
without reporting an error, a shape of rank `r` whose first `r - 1` dimensions are those of
the activations and whose last dimension is the constant `8 * c` in 32-bit `int`
arithmetic, which is exactly `8 * c` when that fits in an `int`. -/
theorem getOutputDimensions_constant_weights (p : WeightOnlyGroupwiseQuantMatmulPlugin)
    (inputs : List DimsExprs) (acts weights : DimsExprs) (c : Int)
    (hn : (inputs.length : Int) = p.mBiasesInputIdx + 1)
    (ha : readAt inputs 0 = .ok acts) (hw : readAt inputs p.mWeightInputIdx = .ok weights)
    (hr : 2 ≤ acts.length) (hw2 : weights.length = 2)
    (hc : readAt weights 1 = .ok (.constant c)) :
    ∃ ret, getOutputDimensions p 0 inputs inputs.length = .ok (ret, false) ∧
      ret.length = acts.length ∧
      (∀ i, i < acts.length - 1 → ret[i]? = acts[i]?) ∧
      ret[acts.length - 1]? = some (.constant (mulInt32 c 8)) ∧
      (InInt32 (8 * c) → ret[acts.length - 1]? = some (.constant (8 * c))) := by
  have htry := getOutputDimensionsTry_eq p inputs acts weights _ hn ha hw hr hw2 hc
  have hlen : (acts.take (acts.length - 1)).length = acts.length - 1 := by
    rw [List.length_take]; omega
  have hlast : (acts.take (acts.length - 1)
      ++ [DimExpr.constant (mulInt32 c 8)])[acts.length - 1]?
      = some (.constant (mulInt32 c 8)) := by
    rw [List.getElem?_append_right (by omega)]
    simp [hlen]
  refine ⟨_, by simp only [getOutputDimensions, htry]; rfl, ?_, ?_, hlast, ?_⟩
  · simp only [List.length_append, hlen, List.length_singleton]
    omega
  · intro i hi
    rw [List.getElem?_append_left (by omega)]
    rw [List.getElem?_take]
    simp [hi]
  · intro hin
    rw [hlast]
    have : mulInt32 c 8 = 8 * c := by
      unfold InInt32 at hin
      unfold mulInt32 wrapInt32
      omega
    rw [this]

/-- C3, amended, at the example of the spec: activations `[8, 16, 64]` with weights
`[64, 32]` give `[8, 16, 256]`. -/
theorem getOutputDimensions_constant_weights_witness :
    ∃ ret, getOutputDimensions
        ⟨DataType.kHALF, 0, 128, 0, 1, 2, 2, 2, .FINEGRAINED_SCALE_ONLY, none⟩ 0
        [[.constant 8, .constant 16, .constant 64], [.constant 64, .constant 32],
          [.constant 1, .constant 256]] 3 = .ok (ret, false) ∧
      ret.length = 3 ∧ ret[0]? = some (.constant 8) ∧ ret[1]? = some (.constant 16) ∧
      ret[2]? = some (.constant 256) := by
  obtain ⟨ret, hret, hlen, hlead, -, hlast⟩ := getOutputDimensions_constant_weights
    ⟨DataType.kHALF, 0, 128, 0, 1, 2, 2, 2, .FINEGRAINED_SCALE_ONLY, none⟩
    [[.constant 8, .constant 16, .constant 64], [.constant 64, .constant 32],
      [.constant 1, .constant 256]]
    [.constant 8, .constant 16, .constant 64] [.constant 64, .constant 32] 32
    (by decide) rfl rfl (by decide) rfl rfl
  exact ⟨ret, hret, hlen, hlead 0 (by decide), hlead 1 (by decide), hlast (by decide)⟩

/-! ### C4 -/

/-- C4. For a constructed plugin and any input shape list, `getOutputDimensions` called for
output 0 returns; it reports an error (the assertion failure is caught) if and only if the
input count differs from `mBiasesInputIdx + 1`, or the activations' rank is below 2, or
the weights' rank is not 2; when it reports an error the returned shape is the empty
default shape, and otherwise it is the computed shape, of the activations' rank. -/
theorem getOutputDimensions_error_iff (p : WeightOnlyGroupwiseQuantMatmulPlugin)
    (hp : Constructed p) (inputs : List DimsExprs) :
    ∃ ret caught, getOutputDimensions p 0 inputs inputs.length = .ok (ret, caught) ∧
      (caught = true ↔
        ((inputs.length : Int) ≠ p.mBiasesInputIdx + 1 ∨ (inputs.getD 0 []).length < 2 ∨
          (inputs.getD p.mWeightInputIdx.toNat []).length ≠ 2)) ∧
      (caught = true → ret = []) ∧
      (caught = false → ret.length = (inputs.getD 0 []).length ∧ 2 ≤ ret.length) := by
  by_cases hn : (inputs.length : Int) = p.mBiasesInputIdx + 1
  · obtain ⟨h0, h1, h2, h3, h4⟩ := constructed_index_bounds hp
    obtain ⟨acts, ha⟩ := readAt_of_lt inputs 0 (le_refl 0) (by omega)
    obtain ⟨weights, hw⟩ := readAt_of_lt inputs p.mWeightInputIdx (by omega) (by omega)
    have hga : inputs.getD (0 : Int).toNat [] = acts := getD_of_readAt [] ha
    have hgw : inputs.getD p.mWeightInputIdx.toNat [] = weights := getD_of_readAt [] hw
    have hga0 : inputs.getD 0 [] = acts := hga
    rw [hga0, hgw]
    by_cases hgood : 2 ≤ acts.length ∧ weights.length = 2
    · obtain ⟨w1, hw1⟩ := readAt_of_lt weights 1 (by decide) (by omega)
      have htry := getOutputDimensionsTry_eq p inputs acts weights w1 hn ha hw hgood.1
        hgood.2 hw1
      refine ⟨acts.take (acts.length - 1) ++ [DimExpr.constant (mulInt32 w1.getConstantValue 8)],
        false, by simp only [getOutputDimensions, htry], ?_, ?_, ?_⟩
      · constructor
        · intro h; cases h
        · intro h
          rcases h with h | h | h
          · exact absurd hn h
          · omega
          · exact absurd hgood.2 h
      · intro h; cases h
      · intro _
        have hlen : (acts.take (acts.length - 1)).length = acts.length - 1 := by
          rw [List.length_take]; omega
        simp only [List.length_append, hlen, List.length_singleton]
        omega
    · have hbad : acts.length < 2 ∨ weights.length ≠ 2 := by
        by_cases hr : 2 ≤ acts.length
        · exact Or.inr (fun h => hgood ⟨hr, h⟩)
        · exact Or.inl (by omega)
      have htry := getOutputDimensionsTry_rank_error p inputs acts weights hn ha hw hbad
      refine ⟨[], true, by simp only [getOutputDimensions, htry], ?_, fun _ => rfl, ?_⟩
      · constructor
        · intro _
          exact Or.inr hbad
        · intro _; rfl
      · intro h; cases h
  · refine ⟨[], true, getOutputDimensions_of_count_ne p 0 inputs _ hn, ?_, fun _ => rfl, ?_⟩
    · constructor
      · intro _
        exact Or.inl hn
      · intro _; rfl
    · intro h; cases h

/-- C4 at weights of rank 3 (three inputs, as `quant_algo = 0` expects, activations of rank
2): the error is reported and the empty default shape is returned. -/
theorem getOutputDimensions_error_iff_witness :
    Constructed ⟨DataType.kHALF, 0, 128, 0, 1, 2, 2, 2, .FINEGRAINED_SCALE_ONLY, none⟩ ∧
    getOutputDimensions ⟨DataType.kHALF, 0, 128, 0, 1, 2, 2, 2, .FINEGRAINED_SCALE_ONLY, none⟩ 0
      [[.symbolic 0, .constant 64], [.constant 64, .constant 32, .constant 1],
        [.constant 1, .constant 256]] 3 = .ok ([], true) := by
  have hc : Constructed
      ⟨DataType.kHALF, 0, 128, 0, 1, 2, 2, 2, .FINEGRAINED_SCALE_ONLY, none⟩ :=
    ⟨DataType.kHALF, 0, 128, rfl⟩
  obtain ⟨ret, caught, hret, hiff, hempty, -⟩ := getOutputDimensions_error_iff _ hc
    [[.symbolic 0, .constant 64], [.constant 64, .constant 32, .constant 1],
      [.constant 1, .constant 256]]
  have hcaught : caught = true := hiff.2 (Or.inr (Or.inr (by decide)))
  have hnil : ret = [] := hempty hcaught
  subst hcaught
  subst hnil
  exact ⟨hc, hret⟩

/-! ### Facts about `enqueue` -/

theorem wrapInt32_modEq (x : Int) : wrapInt32 x ≡ x [ZMOD 4294967296] := by
  unfold wrapInt32 Int.ModEq
  omega

theorem wrapInt32_congr {x y : Int} (h : x ≡ y [ZMOD 4294967296]) :
    wrapInt32 x = wrapInt32 y := by
  unfold wrapInt32
  unfold Int.ModEq at h
  omega

theorem wrapInt32_of_inInt32 {x : Int} (h : InInt32 x) : wrapInt32 x = x := by
  unfold InInt32 at h
  unfold wrapInt32
  omega

theorem wrapInt32_idem (x : Int) : wrapInt32 (wrapInt32 x) = wrapInt32 x :=
  wrapInt32_congr (wrapInt32_modEq x)

theorem foldl_mulInt32_modEq (xs : List Int) (a : Int) :
    xs.foldl mulInt32 a ≡ a * xs.prod [ZMOD 4294967296] := by
  induction xs generalizing a with
  | nil => simp [Int.ModEq.refl]
  | cons x xs ih =>
    simp only [List.foldl_cons, List.prod_cons]
    refine (ih (mulInt32 a x)).trans ?_
    rw [← mul_assoc]
    exact (wrapInt32_modEq (a * x)).mul_right _

theorem foldl_mulInt32_wrapped (xs : List Int) (a : Int) (ha : wrapInt32 a = a) :
    wrapInt32 (xs.foldl mulInt32 a) = xs.foldl mulInt32 a := by
  induction xs generalizing a with
  | nil => simpa using ha
  | cons x xs ih =>
    simp only [List.foldl_cons]
    exact ih _ (wrapInt32_idem _)

theorem leadingDimsProduct_eq (d : Dims) :
    leadingDimsProduct d = wrapInt32 d.dropLast.prod := by
  unfold leadingDimsProduct
  rw [← List.dropLast_eq_take]
  rw [← foldl_mulInt32_wrapped d.dropLast 1 (by decide)]
  refine wrapInt32_congr ?_
  simpa using foldl_mulInt32_modEq d.dropLast 1

theorem shapeOf_of_readAt {inputDesc : List PluginTensorDesc} {i : Int}
    {desc : PluginTensorDesc} (h : readAt inputDesc i = .ok desc) :
    shapeOf inputDesc i.toNat = desc.dims := by
  obtain ⟨-, hget⟩ := (readAt_eq_ok_iff inputDesc i desc).1 h
  simp [shapeOf, List.getD, hget]

theorem getLastD_of_readAt {xs : List Int} {k : Int}
    (h : readAt xs ((xs.length : Int) - 1) = .ok k) : xs.getLastD 0 = k := by
  obtain ⟨h0, hget⟩ := (readAt_eq_ok_iff xs _ k).1 h
  have hidx : ((xs.length : Int) - 1).toNat = xs.length - 1 := by omega
  rw [hidx] at hget
  rw [List.getLastD_eq_getLast?, List.getLast?_eq_getElem?, hget]
  rfl

/-- The value of `enqueue` on a valid call of a constructed plugin. -/
theorem enqueue_eq (T : Int) (rws : RunnerWorkspaceSize)
    (p : WeightOnlyGroupwiseQuantMatmulPlugin) (hp : Constructed p)
    (inputDesc : List PluginTensorDesc) (inputs outputs : List Ptr) (workspace : Ptr)
    (hv : ValidEnqueueCall p inputDesc inputs outputs) :
    ∃ in0 inPre inW inS inZ inB out0,
      readAt inputs 0 = .ok in0 ∧ readAt inputs p.mPreQuantScaleInputIdx = .ok inPre ∧
      readAt inputs p.mWeightInputIdx = .ok inW ∧ readAt inputs p.mScalesInputIdx = .ok inS ∧
      readAt inputs p.mZerosInputIdx = .ok inZ ∧ readAt inputs p.mBiasesInputIdx = .ok inB ∧
      readAt outputs 0 = .ok out0 ∧
      ∃ scaling launch, enqueue T rws p inputDesc inputs outputs workspace
          = .ok { launches := scaling ++ [launch], status := 0 } ∧
        scaling = (if hasFlag p.mQuantAlgo PRE_SCALE_QUANT then
              [KernelLaunch.apply_per_channel_scale workspace in0 inPre
                (leadingDimsProduct (shapeOf inputDesc 0)) (activationCols inputDesc)]
             else []) ∧
        launch = (if leadingDimsProduct (shapeOf inputDesc 0) < T then
               KernelLaunch.groupwise_weight_only_matmul_i2f inW inS
                 (if hasFlag p.mQuantAlgo ZER0 then inZ else nullptr)
                 (if hasFlag p.mQuantAlgo PRE_SCALE_QUANT then workspace else in0)
                 (if hasFlag p.mQuantAlgo BIAS then inB else nullptr) out0
                 (leadingDimsProduct (shapeOf inputDesc 0))
                 (mulInt32 (weightsPackedCols p inputDesc) 8) (activationCols inputDesc)
                 p.mGroupSize
             else
               KernelLaunch.gemm
                 (if hasFlag p.mQuantAlgo PRE_SCALE_QUANT then workspace else in0) inW inS
                 (if hasFlag p.mQuantAlgo ZER0 then inZ else nullptr)
                 (if hasFlag p.mQuantAlgo BIAS then inB else nullptr) out0
                 (leadingDimsProduct (shapeOf inputDesc 0))
                 (mulInt32 (weightsPackedCols p inputDesc) 8) (activationCols inputDesc)
                 p.mGroupSize
                 (wrapSizeT (workspace + wrapSizeT (toSizeT (mulInt32
                   (leadingDimsProduct (shapeOf inputDesc 0)) (activationCols inputDesc))
                   * sizeofHalf)))
                 (sizeTToInt (rws p.m_weightOnlyGroupwiseGemmRunner
                   (leadingDimsProduct (shapeOf inputDesc 0)) (weightsPackedCols p inputDesc)
                   (activationCols inputDesc)))) := by
  obtain ⟨hn, hin, hout, hra, hrw⟩ := hv
  obtain ⟨h0, h1, h2, h3, h4⟩ := constructed_index_bounds hp
  have hType : p.mType = DataType.kHALF := (constructed_fields hp).1
  have hlen : (inputs.length : Int) = p.mBiasesInputIdx + 1 := by rw [hin]; exact hn
  obtain ⟨desc0, hd0⟩ := readAt_of_lt inputDesc 0 (le_refl 0) (by omega)
  obtain ⟨descW, hdW⟩ := readAt_of_lt inputDesc p.mWeightInputIdx (by omega) (by omega)
  have hs0 : shapeOf inputDesc 0 = desc0.dims := shapeOf_of_readAt hd0
  have hsW : shapeOf inputDesc p.mWeightInputIdx.toNat = descW.dims := shapeOf_of_readAt hdW
  rw [hs0] at hra
  rw [hsW] at hrw
  obtain ⟨n, hnr⟩ := readAt_of_lt descW.dims 1 (by decide) (by omega)
  obtain ⟨k, hkr⟩ := readAt_of_lt desc0.dims ((desc0.dims.length : Int) - 1) (by omega)
    (by omega)
  have hk : activationCols inputDesc = k := by
    unfold activationCols
    rw [hs0]
    exact getLastD_of_readAt hkr
  have hnn : weightsPackedCols p inputDesc = n := by
    unfold weightsPackedCols
    rw [hsW]
    exact getD_of_readAt 0 hnr
  obtain ⟨in0, hi0⟩ := readAt_of_lt inputs 0 (le_refl 0) (by omega)
  obtain ⟨inPre, hiPre⟩ := readAt_of_lt inputs p.mPreQuantScaleInputIdx (by omega) (by omega)
  obtain ⟨inW, hiW⟩ := readAt_of_lt inputs p.mWeightInputIdx (by omega) (by omega)
  obtain ⟨inS, hiS⟩ := readAt_of_lt inputs p.mScalesInputIdx (by omega) (by omega)
  obtain ⟨inZ, hiZ⟩ := readAt_of_lt inputs p.mZerosInputIdx (by omega) (by omega)
  obtain ⟨inB, hiB⟩ := readAt_of_lt inputs p.mBiasesInputIdx (by omega) (by omega)
  obtain ⟨out0, ho0⟩ := readAt_of_lt outputs 0 (le_refl 0) (by omega)
  refine ⟨in0, inPre, inW, inS, inZ, inB, out0, hi0, hiPre, hiW, hiS, hiZ, hiB, ho0, _, _,
    ?_, rfl, rfl⟩
  rw [hk, hnn, hs0]
  unfold enqueue
  simp only [hd0, hdW, hnr, hkr, hi0, hiPre, hiW, hiS, hiZ, hiB, ho0, hType, bind,
    Except.bind, pure, Except.pure, if_true]
  by_cases hm : leadingDimsProduct desc0.dims < T <;>
    cases hasFlag p.mQuantAlgo PRE_SCALE_QUANT <;> cases hasFlag p.mQuantAlgo ZER0 <;>
    cases hasFlag p.mQuantAlgo BIAS <;> simp [hm]

theorem matmulLaunches_append_single (scaling : List KernelLaunch) (launch : KernelLaunch)
    (status : Int) (hs : ∀ l ∈ scaling, l.isMatmul = false) (hl : launch.isMatmul = true) :
    matmulLaunches { launches := scaling ++ [launch], status := status } = [launch] := by
  unfold matmulLaunches
  simp only [List.filter_append]
  have h1 : scaling.filter KernelLaunch.isMatmul = [] := by
    rw [List.filter_eq_nil_iff]
    intro l hl2
    simp [hs l hl2]
  rw [h1]
  simp [List.filter, hl]

/-- The single matmul launch of a valid call of a constructed plugin. -/
theorem enqueue_matmul (T : Int) (rws : RunnerWorkspaceSize)
    (p : WeightOnlyGroupwiseQuantMatmulPlugin) (hp : Constructed p)
    (inputDesc : List PluginTensorDesc) (inputs outputs : List Ptr) (workspace : Ptr)
    (hv : ValidEnqueueCall p inputDesc inputs outputs) :
    ∃ r launch, enqueue T rws p inputDesc inputs outputs workspace = .ok r ∧ r.status = 0 ∧
      matmulLaunches r = [launch] ∧
      launch.isDirect = decide (leadingDimsProduct (shapeOf inputDesc 0) < T) ∧
      launch.isTiled = decide (¬ leadingDimsProduct (shapeOf inputDesc 0) < T) ∧
      launch.problem = some (leadingDimsProduct (shapeOf inputDesc 0),
        mulInt32 (weightsPackedCols p inputDesc) 8, activationCols inputDesc, p.mGroupSize) := by
  obtain ⟨in0, inPre, inW, inS, inZ, inB, out0, -, -, -, -, -, -, -, scaling, launch, heq,
    hsc, hla⟩ := enqueue_eq T rws p hp inputDesc inputs outputs workspace hv
  refine ⟨_, launch, heq, rfl, ?_, ?_, ?_, ?_⟩ <;> rw [hla]
  · apply matmulLaunches_append_single
    · intro l hl
      rw [hsc] at hl
      by_cases hf : hasFlag p.mQuantAlgo PRE_SCALE_QUANT = true
      · rw [if_pos hf] at hl
        simp only [List.mem_singleton] at hl
        subst hl
        rfl
      · rw [if_neg hf] at hl
        cases hl
    · by_cases hm : leadingDimsProduct (shapeOf inputDesc 0) < T
      · rw [if_pos hm]; rfl
      · rw [if_neg hm]; rfl
  · by_cases hm : leadingDimsProduct (shapeOf inputDesc 0) < T
    · rw [if_pos hm]; simp [KernelLaunch.isDirect, hm]
    · rw [if_neg hm]; simp [KernelLaunch.isDirect, hm]
  · by_cases hm : leadingDimsProduct (shapeOf inputDesc 0) < T
    · rw [if_pos hm]; simp [KernelLaunch.isTiled, hm]
    · rw [if_neg hm]; simp [KernelLaunch.isTiled, hm]
  · by_cases hm : leadingDimsProduct (shapeOf inputDesc 0) < T
    · rw [if_pos hm]; rfl
    · rw [if_neg hm]; rfl

/-! ### C5 -/

/-- C5. For every constructed plugin and every valid `enqueue` call, `enqueue` runs to its
end (so the branch for an unsupported type is not taken), returns 0 and launches exactly
one matmul kernel: the direct kernel if `M < SMALL_M_FAST_PATH` and the tiled kernel
otherwise, where `M` is the product of all activation dimensions except the last, as an
`int` (the exact product whenever that fits in an `int`). -/
theorem enqueue_launches_exactly_one_matmul (SMALL_M_FAST_PATH : Int)
    (rws : RunnerWorkspaceSize) (p : WeightOnlyGroupwiseQuantMatmulPlugin)
    (hp : Constructed p) (inputDesc : List PluginTensorDesc) (inputs outputs : List Ptr)
    (workspace : Ptr) (hv : ValidEnqueueCall p inputDesc inputs outputs) :
    ∃ r launch,
      enqueue SMALL_M_FAST_PATH rws p inputDesc inputs outputs workspace = .ok r ∧
      r.status = 0 ∧ matmulLaunches r = [launch] ∧
      (wrapInt32 (activationRows inputDesc) < SMALL_M_FAST_PATH →
        launch.isDirect = true ∧ launch.isTiled = false) ∧
      (SMALL_M_FAST_PATH ≤ wrapInt32 (activationRows inputDesc) →
        launch.isTiled = true ∧ launch.isDirect = false) ∧
      (InInt32 (activationRows inputDesc) →
        wrapInt32 (activationRows inputDesc) = activationRows inputDesc) := by
  obtain ⟨r, launch, hr, hs, hl, hd, ht, -⟩ :=
    enqueue_matmul SMALL_M_FAST_PATH rws p hp inputDesc inputs outputs workspace hv
  rw [leadingDimsProduct_eq] at hd ht
  refine ⟨r, launch, hr, hs, hl, ?_, ?_, fun h => wrapInt32_of_inInt32 h⟩
  · intro hlt
    have hlt2 : wrapInt32 (shapeOf inputDesc 0).dropLast.prod < SMALL_M_FAST_PATH := hlt
    rw [hd, ht]
    simp [hlt2]
  · intro hge
    have hge2 : ¬ wrapInt32 (shapeOf inputDesc 0).dropLast.prod < SMALL_M_FAST_PATH :=
      not_lt.2 hge
    rw [hd, ht]
    simp [hge2]

/-- C5 at the boundary, with threshold 5: activations `[5, 64]` (`M = 5`) select the tiled
kernel and activations `[4, 64]` (`M = 4`) select the direct kernel. -/
theorem enqueue_launches_exactly_one_matmul_witness :
    (∃ r launch,
      enqueue 5 (fun _ _ _ _ => 0)
        ⟨DataType.kHALF, 0, 128, 0, 1, 2, 2, 2, .FINEGRAINED_SCALE_ONLY, none⟩
        [⟨[5, 64], DataType.kHALF, TensorFormat.kLINEAR⟩,
          ⟨[64, 32], DataType.kFLOAT, TensorFormat.kLINEAR⟩,
          ⟨[1, 256], DataType.kHALF, TensorFormat.kLINEAR⟩]
        [1000, 2000, 3000] [4000] 5000 = .ok r ∧
      r.status = 0 ∧ matmulLaunches r = [launch] ∧ launch.isTiled = true) ∧
    (∃ r launch,
      enqueue 5 (fun _ _ _ _ => 0)
        ⟨DataType.kHALF, 0, 128, 0, 1, 2, 2, 2, .FINEGRAINED_SCALE_ONLY, none⟩
        [⟨[4, 64], DataType.kHALF, TensorFormat.kLINEAR⟩,
          ⟨[64, 32], DataType.kFLOAT, TensorFormat.kLINEAR⟩,
          ⟨[1, 256], DataType.kHALF, TensorFormat.kLINEAR⟩]
        [1000, 2000, 3000] [4000] 5000 = .ok r ∧
      r.status = 0 ∧ matmulLaunches r = [launch] ∧ launch.isDirect = true) := by
  have hc : Constructed
      ⟨DataType.kHALF, 0, 128, 0, 1, 2, 2, 2, .FINEGRAINED_SCALE_ONLY, none⟩ :=
    ⟨DataType.kHALF, 0, 128, rfl⟩
  constructor
  · obtain ⟨r, launch, hr, hs, hl, -, ht, -⟩ := enqueue_launches_exactly_one_matmul 5
      (fun _ _ _ _ => 0) _ hc
      [⟨[5, 64], DataType.kHALF, TensorFormat.kLINEAR⟩,
        ⟨[64, 32], DataType.kFLOAT, TensorFormat.kLINEAR⟩,
        ⟨[1, 256], DataType.kHALF, TensorFormat.kLINEAR⟩]
      [1000, 2000, 3000] [4000] 5000 (by decide)
    exact ⟨r, launch, hr, hs, hl, (ht (by decide)).1⟩
  · obtain ⟨r, launch, hr, hs, hl, hd, -, -⟩ := enqueue_launches_exactly_one_matmul 5
      (fun _ _ _ _ => 0) _ hc
      [⟨[4, 64], DataType.kHALF, TensorFormat.kLINEAR⟩,
        ⟨[64, 32], DataType.kFLOAT, TensorFormat.kLINEAR⟩,
        ⟨[1, 256], DataType.kHALF, TensorFormat.kLINEAR⟩]
      [1000, 2000, 3000] [4000] 5000 (by decide)
    exact ⟨r, launch, hr, hs, hl, (hd (by decide)).1⟩

/-! ### C6 -/

/-- C6. After `configurePlugin` on maximum descriptors whose activation shape has a last
dimension and whose weights shape has a second dimension, `getWorkspaceSize` returns, for
any arguments, `maxM * maxK * elementSize + kernelWorkspaceSize(maxM, maxN, maxK)`, where
`maxM` is the product of all but the last dimension of the maximum activation shape, `maxK`
its last dimension, `maxN` is 8 times the weights' second maximum dimension and
`elementSize` is 4 for a `kFLOAT` activation descriptor and 2 otherwise, provided the
integer arithmetic does not overflow (`maxM`, `maxN`, `maxM * maxK` and
`maxM * maxK * elementSize` fit in an `int`, and the sum is a `size_t`). -/
theorem getWorkspaceSize_after_configurePlugin (rws : RunnerWorkspaceSize)
    (p : WeightOnlyGroupwiseQuantMatmulPlugin) (inp : List DynamicPluginTensorDesc)
    (in0 inW : DynamicPluginTensorDesc)
    (h0 : readAt inp 0 = .ok in0) (hW : readAt inp p.mWeightInputIdx = .ok inW)
    (hr : 1 ≤ in0.max.length) (hw : 2 ≤ inW.max.length)
    (hM : InInt32 in0.max.dropLast.prod) (hN : InInt32 (8 * inW.max.getD 1 0))
    (hMK : InInt32 (in0.max.dropLast.prod * in0.max.getLastD 0))
    (hS : InInt32 (in0.max.dropLast.prod * in0.max.getLastD 0
      * (if in0.desc.type = DataType.kFLOAT then 4 else 2)))
    (hpos : 0 ≤ in0.max.dropLast.prod * in0.max.getLastD 0
      * (if in0.desc.type = DataType.kFLOAT then 4 else 2)
      + (rws p.m_weightOnlyGroupwiseGemmRunner in0.max.dropLast.prod
          (8 * inW.max.getD 1 0) (in0.max.getLastD 0) : Int))
    (hsum : in0.max.dropLast.prod * in0.max.getLastD 0
      * (if in0.desc.type = DataType.kFLOAT then 4 else 2)
      + (rws p.m_weightOnlyGroupwiseGemmRunner in0.max.dropLast.prod
          (8 * inW.max.getD 1 0) (in0.max.getLastD 0) : Int) < 18446744073709551616) :
    ∃ q size, configurePlugin rws p inp = .ok q ∧
      (∀ inputs nbInputs outputs nbOutputs,
        getWorkspaceSize q inputs nbInputs outputs nbOutputs = some size) ∧
      (size : Int) = in0.max.dropLast.prod * in0.max.getLastD 0
        * (if in0.desc.type = DataType.kFLOAT then 4 else 2)
        + (rws p.m_weightOnlyGroupwiseGemmRunner in0.max.dropLast.prod
            (8 * inW.max.getD 1 0) (in0.max.getLastD 0) : Int) := by
  obtain ⟨k, hk⟩ := readAt_of_lt in0.max ((in0.max.length : Int) - 1) (by omega) (by omega)
  obtain ⟨w1, hw1⟩ := readAt_of_lt inW.max 1 (by decide) (by omega)
  have hkeq : in0.max.getLastD 0 = k := getLastD_of_readAt hk
  have hweq : inW.max.getD 1 0 = w1 := getD_of_readAt 0 hw1
  subst hkeq
  subst hweq
  have hMeq : leadingDimsProduct in0.max = in0.max.dropLast.prod := by
    rw [leadingDimsProduct_eq]
    exact wrapInt32_of_inInt32 hM
  have hNeq : mulInt32 (inW.max.getD 1 0) 8 = 8 * inW.max.getD 1 0 := by
    unfold mulInt32
    rw [mul_comm]
    exact wrapInt32_of_inInt32 hN
  have hMKeq : mulInt32 in0.max.dropLast.prod (in0.max.getLastD 0)
      = in0.max.dropLast.prod * in0.max.getLastD 0 := wrapInt32_of_inInt32 hMK
  have hSeq : mulInt32 (in0.max.dropLast.prod * in0.max.getLastD 0)
      (if in0.desc.type = DataType.kFLOAT then 4 else 2)
      = in0.max.dropLast.prod * in0.max.getLastD 0
        * (if in0.desc.type = DataType.kFLOAT then 4 else 2) := wrapInt32_of_inInt32 hS
  have hcfg : ∀ size, size = wrapSizeT (toSizeT (in0.max.dropLast.prod * in0.max.getLastD 0
        * (if in0.desc.type = DataType.kFLOAT then 4 else 2))
        + rws p.m_weightOnlyGroupwiseGemmRunner in0.max.dropLast.prod
            (8 * inW.max.getD 1 0) (in0.max.getLastD 0)) →
      configurePlugin rws p inp = .ok { p with m_workspaceMaxSize := some size } := by
    intro size hsize
    simp only [configurePlugin, h0, hW, hk, hw1, bind, Except.bind, pure, Except.pure, hMeq,
      hNeq, hMKeq, hSeq, hsize]
  refine ⟨_, _, hcfg _ rfl, fun _ _ _ _ => rfl, ?_⟩
  generalize in0.max.dropLast.prod * in0.max.getLastD 0
    * (if in0.desc.type = DataType.kFLOAT then 4 else 2) = x at hpos hsum ⊢
  generalize rws p.m_weightOnlyGroupwiseGemmRunner in0.max.dropLast.prod
    (8 * inW.max.getD 1 0) (in0.max.getLastD 0) = y at hpos hsum ⊢
  unfold wrapSizeT toSizeT
  omega

/-- C6 at maximum activations `[16, 64]` of type `kHALF` and maximum weights `[64, 32]`, with
a runner that reports `m * n + k` bytes: `16 * 64 * 2 + (16 * 256 + 64) = 6208`. -/
theorem getWorkspaceSize_after_configurePlugin_witness :
    ∃ q, configurePlugin (fun _ m n k => (m * n + k).toNat)
        ⟨DataType.kHALF, 0, 128, 0, 1, 2, 2, 2, .FINEGRAINED_SCALE_ONLY, none⟩
        [⟨⟨[16, 64], DataType.kHALF, TensorFormat.kLINEAR⟩, [16, 64]⟩,
          ⟨⟨[64, 32], DataType.kFLOAT, TensorFormat.kLINEAR⟩, [64, 32]⟩,
          ⟨⟨[1, 256], DataType.kHALF, TensorFormat.kLINEAR⟩, [1, 256]⟩] = .ok q ∧
      getWorkspaceSize q [] 0 [] 0 = some 6208 := by
  obtain ⟨q, size, hq, hws, hsize⟩ := getWorkspaceSize_after_configurePlugin
    (fun _ m n k => (m * n + k).toNat)
    ⟨DataType.kHALF, 0, 128, 0, 1, 2, 2, 2, .FINEGRAINED_SCALE_ONLY, none⟩
    [⟨⟨[16, 64], DataType.kHALF, TensorFormat.kLINEAR⟩, [16, 64]⟩,
      ⟨⟨[64, 32], DataType.kFLOAT, TensorFormat.kLINEAR⟩, [64, 32]⟩,
      ⟨⟨[1, 256], DataType.kHALF, TensorFormat.kLINEAR⟩, [1, 256]⟩]
    ⟨⟨[16, 64], DataType.kHALF, TensorFormat.kLINEAR⟩, [16, 64]⟩
    ⟨⟨[64, 32], DataType.kFLOAT, TensorFormat.kLINEAR⟩, [64, 32]⟩
    rfl rfl (by decide) (by decide) (by decide) (by decide) (by decide) (by decide)
    (by decide) (by decide)
  have h6208 : (size : Int) = 6208 := hsize
  have hsz : size = 6208 := by omega
  subst hsz
  exact ⟨q, hq, hws [] 0 [] 0⟩

/-! ### Facts about the serialized form -/

theorem readInt32_writeInt32 (data : Nat → Nat) (off : Nat) (v : Int) (hv : InInt32 v)
    (h0 : data off = (writeInt32 v).getD 0 0) (h1 : data (off + 1) = (writeInt32 v).getD 1 0)
    (h2 : data (off + 2) = (writeInt32 v).getD 2 0)
    (h3 : data (off + 3) = (writeInt32 v).getD 3 0) :
    readInt32 data off = v := by
  unfold readInt32
  rw [h0, h1, h2, h3]
  unfold InInt32 at hv
  have hu : ((v % 4294967296).toNat : Int) = v % 4294967296 :=
    Int.toNat_of_nonneg (Int.emod_nonneg _ (by decide))
  simp only [writeInt32, List.getD_cons_zero, List.getD_cons_succ]
  generalize (v % 4294967296).toNat = u at hu
  unfold wrapInt32
  simp only [Int.ofNat_eq_coe]
  omega

theorem serialize_eq (p : WeightOnlyGroupwiseQuantMatmulPlugin) :
    serialize p
      = .ok (writeInt32 p.mType.val ++ writeInt32 p.mQuantAlgo ++ writeInt32 p.mGroupSize) := by
  have hlen : (writeInt32 p.mType.val ++ writeInt32 p.mQuantAlgo
      ++ writeInt32 p.mGroupSize).length = getSerializationSize p := rfl
  unfold serialize
  simp only []
  rw [if_pos hlen]

theorem serialize_length (p : WeightOnlyGroupwiseQuantMatmulPlugin) :
    (writeInt32 p.mType.val ++ writeInt32 p.mQuantAlgo ++ writeInt32 p.mGroupSize).length
      = 12 := rfl

theorem constructed_init {p : WeightOnlyGroupwiseQuantMatmulPlugin} (hp : Constructed p) :
    init p.mType p.mQuantAlgo p.mGroupSize = .ok { p with m_workspaceMaxSize := none } := by
  obtain ⟨type, quant_algo, group_size, h⟩ := hp
  obtain ⟨-, h0, hq, hg, -⟩ := init_fields h
  have e1 : p.mType = type := h0
  have e2 : p.mQuantAlgo = quant_algo := hq
  have e3 : p.mGroupSize = group_size := hg
  subst e1
  subst e2
  subst e3
  exact h

theorem constructFromBuffer_eq (data : Nat → Nat) (length : Nat) :
    constructFromBuffer data length
      = (init ⟨readInt32 data 0⟩ (readInt32 data 4) (readInt32 data 8)).bind fun p =>
          if length = 12 then .ok p else .error Fault.pluginAssert := by
  unfold constructFromBuffer
  simp only [sizeofDataType, sizeofInt, bind, pure, Except.pure, PLUGIN_ASSERT, Nat.zero_add]
  congr 1
  funext p
  by_cases h : length = 12
  · subst h
    rfl
  · have hb : ((12 : Nat) == length) = false := by
      simp only [beq_eq_false_iff_ne, ne_eq]
      exact fun h2 => h h2.symm
    simp [h, hb, Except.bind]

theorem deserializePlugin_kHALF (data : Nat → Nat) (length : Nat)
    (ht : readInt32 data 0 = DataType.kHALF.val) :
    ∃ p, init DataType.kHALF (readInt32 data 4) (readInt32 data 8) = .ok p ∧
      WeightOnlyGroupwiseQuantMatmulPluginCreator.deserializePlugin data length
        = if length = 12 then .ok (some p) else .ok none := by
  obtain ⟨p, hp⟩ := init_kHALF_isOk (readInt32 data 4) (readInt32 data 8)
  refine ⟨p, hp, ?_⟩
  have hty : (⟨readInt32 data 0⟩ : DataType) = DataType.kHALF := by rw [ht]
  unfold WeightOnlyGroupwiseQuantMatmulPluginCreator.deserializePlugin
  rw [constructFromBuffer_eq, hty, hp]
  by_cases h : length = 12
  · simp only [Except.bind, if_pos h, tryCatch]
  · simp only [Except.bind, if_neg h, tryCatch, if_false]

/-! ### C7 -/

/-- C7. For every constructed plugin `p` (its type is then the supported one) whose
`quant_algo` and `group_size` are values of type `int` (so for every `quant_algo` in
`[0, 8)` and every `group_size > 0`), `serialize` writes the bytes of `mType`,
`mQuantAlgo`, `mGroupSize` in that order, `getSerializationSize()` many, and
`deserializePlugin` on those bytes with that length returns a plugin with the same
`mType`, `mQuantAlgo`, `mGroupSize` and the same five derived input indices. -/
theorem serialize_deserialize_roundtrip (p : WeightOnlyGroupwiseQuantMatmulPlugin)
    (hp : Constructed p) (hQ : InInt32 p.mQuantAlgo) (hgi : InInt32 p.mGroupSize) :
    ∃ bytes q, serialize p = .ok bytes ∧
      bytes = writeInt32 p.mType.val ++ writeInt32 p.mQuantAlgo ++ writeInt32 p.mGroupSize ∧
      bytes.length = getSerializationSize p ∧
      WeightOnlyGroupwiseQuantMatmulPluginCreator.deserializePlugin (memoryOf bytes)
        (getSerializationSize p) = .ok (some q) ∧
      q.mType = p.mType ∧ q.mQuantAlgo = p.mQuantAlgo ∧ q.mGroupSize = p.mGroupSize ∧
      q.mPreQuantScaleInputIdx = p.mPreQuantScaleInputIdx ∧
      q.mWeightInputIdx = p.mWeightInputIdx ∧ q.mScalesInputIdx = p.mScalesInputIdx ∧
      q.mZerosInputIdx = p.mZerosInputIdx ∧ q.mBiasesInputIdx = p.mBiasesInputIdx := by
  have hType : p.mType = DataType.kHALF := (constructed_fields hp).1
  have hinit := constructed_init hp
  have hTy : InInt32 p.mType.val := by rw [hType]; decide
  have hlen : (writeInt32 p.mType.val ++ writeInt32 p.mQuantAlgo
      ++ writeInt32 p.mGroupSize).length = getSerializationSize p := rfl
  have hr0 : readInt32 (memoryOf (writeInt32 p.mType.val ++ writeInt32 p.mQuantAlgo
      ++ writeInt32 p.mGroupSize)) 0 = p.mType.val :=
    readInt32_writeInt32 _ 0 _ hTy rfl rfl rfl rfl
  have hr4 : readInt32 (memoryOf (writeInt32 p.mType.val ++ writeInt32 p.mQuantAlgo
      ++ writeInt32 p.mGroupSize)) 4 = p.mQuantAlgo :=
    readInt32_writeInt32 _ 4 _ hQ rfl rfl rfl rfl
  have hr8 : readInt32 (memoryOf (writeInt32 p.mType.val ++ writeInt32 p.mQuantAlgo
      ++ writeInt32 p.mGroupSize)) 8 = p.mGroupSize :=
    readInt32_writeInt32 _ 8 _ hgi rfl rfl rfl rfl
  refine ⟨_, { p with m_workspaceMaxSize := none }, ?_, rfl, hlen, ?_, rfl, rfl, rfl, rfl,
    rfl, rfl, rfl, rfl⟩
  · exact serialize_eq p
  · unfold WeightOnlyGroupwiseQuantMatmulPluginCreator.deserializePlugin
    rw [constructFromBuffer_eq, hr0, hr4, hr8]
    have heta : (⟨p.mType.val⟩ : DataType) = p.mType := rfl
    rw [heta, hinit]
    rfl

/-- C7 at the plugin built from `(kHALF, 7, 128)`: the twelve bytes written, and the plugin
read back from them. -/
theorem serialize_deserialize_roundtrip_witness :
    ∃ bytes q,
      serialize ⟨DataType.kHALF, 7, 128, 1, 2, 3, 4, 5, .FINEGRAINED_SCALE_AND_ZEROS, none⟩
        = .ok bytes ∧
      bytes = [1, 0, 0, 0, 7, 0, 0, 0, 128, 0, 0, 0] ∧
      WeightOnlyGroupwiseQuantMatmulPluginCreator.deserializePlugin (memoryOf bytes) 12
        = .ok (some q) ∧
      (q.mType, q.mQuantAlgo, q.mGroupSize) = (DataType.kHALF, 7, 128) ∧
      (q.mPreQuantScaleInputIdx, q.mWeightInputIdx, q.mScalesInputIdx, q.mZerosInputIdx,
        q.mBiasesInputIdx) = (1, 2, 3, 4, 5) := by
  obtain ⟨bytes, q, hs, hb, -, hd, h1, h2, h3, h4, h5, h6, h7, h8⟩ :=
    serialize_deserialize_roundtrip
      ⟨DataType.kHALF, 7, 128, 1, 2, 3, 4, 5, .FINEGRAINED_SCALE_AND_ZEROS, none⟩
      ⟨DataType.kHALF, 7, 128, rfl⟩ (by decide) (by decide)
  refine ⟨bytes, q, hs, hb, hd, ?_, ?_⟩
  · rw [h1, h2, h3]
  · rw [h4, h5, h6, h7, h8]

/-! ### C8 -/

/-- C8. For a buffer whose first field is the supported type, `deserializePlugin` returns a
plugin if and only if `length` is `sizeof(DataType) + 2 * sizeof(int)`; this is
`getSerializationSize()` of the plugin returned and the number of bytes that `serialize`
writes for it; for any other length the construction fails with an error that is caught
and the null pointer is returned. -/
theorem deserializePlugin_some_iff_length (data : Nat → Nat) (length : Nat)
    (ht : readInt32 data 0 = DataType.kHALF.val) :
    ((∃ p, WeightOnlyGroupwiseQuantMatmulPluginCreator.deserializePlugin data length
        = .ok (some p)) ↔ length = sizeofDataType + 2 * sizeofInt) ∧
    (length ≠ sizeofDataType + 2 * sizeofInt →
      constructFromBuffer data length = .error Fault.pluginAssert ∧
      WeightOnlyGroupwiseQuantMatmulPluginCreator.deserializePlugin data length = .ok none) ∧
    (∀ p, WeightOnlyGroupwiseQuantMatmulPluginCreator.deserializePlugin data length
        = .ok (some p) →
      length = getSerializationSize p ∧
      ∃ bytes, serialize p = .ok bytes ∧ bytes.length = length) := by
  obtain ⟨p0, hp0, hd⟩ := deserializePlugin_kHALF data length ht
  have hsz : sizeofDataType + 2 * sizeofInt = 12 := rfl
  rw [hsz, hd]
  have hty : (⟨readInt32 data 0⟩ : DataType) = DataType.kHALF := by rw [ht]
  by_cases h : length = 12
  · rw [if_pos h]
    refine ⟨⟨fun _ => h, fun _ => ⟨p0, rfl⟩⟩, fun hne => absurd h hne, ?_⟩
    intro p _
    exact ⟨h, _, serialize_eq p, (serialize_length p).trans h.symm⟩
  · rw [if_neg h]
    refine ⟨⟨?_, fun h2 => absurd h2 h⟩, fun _ => ⟨?_, rfl⟩, ?_⟩
    · rintro ⟨p, hp⟩
      cases hp
    · rw [constructFromBuffer_eq, hty, hp0]
      simp [h, Except.bind]
    · intro p hp
      cases hp

/-- C8 at a buffer that holds `(kHALF, 7, 128)`: with length 12 a plugin is returned, with
length 11 the null pointer. -/
theorem deserializePlugin_some_iff_length_witness :
    (∃ p, WeightOnlyGroupwiseQuantMatmulPluginCreator.deserializePlugin
      (memoryOf [1, 0, 0, 0, 7, 0, 0, 0, 128, 0, 0, 0]) 12 = .ok (some p)) ∧
    WeightOnlyGroupwiseQuantMatmulPluginCreator.deserializePlugin
      (memoryOf [1, 0, 0, 0, 7, 0, 0, 0, 128, 0, 0, 0]) 11 = .ok none :=
  ⟨(deserializePlugin_some_iff_length (memoryOf [1, 0, 0, 0, 7, 0, 0, 0, 128, 0, 0, 0]) 12
      (by decide)).1.2 rfl,
   ((deserializePlugin_some_iff_length (memoryOf [1, 0, 0, 0, 7, 0, 0, 0, 128, 0, 0, 0]) 11
      (by decide)).2.1 (by decide)).2⟩

/-! ### C9 -/

/-- C9. For every `quant_algo` and `group_size`, `init` succeeds if and only if the type is
`kHALF`; for any other type `init` and the constructor raise an error, `createPlugin`
(whose field loop produced this type) returns the null pointer, and so does
`deserializePlugin` on a buffer that holds this type: no plugin is produced. -/
theorem unsupported_type_rejected (type : DataType) (quant_algo group_size : Int) :
    ((∃ p, init type quant_algo group_size = .ok p) ↔ type = DataType.kHALF) ∧
    (type ≠ DataType.kHALF →
      init type quant_algo group_size = .error Fault.pluginAssert ∧
      construct type quant_algo group_size = .error Fault.pluginAssert ∧
      (∀ indeterminate fc,
        WeightOnlyGroupwiseQuantMatmulPluginCreator.readFields indeterminate fc
          = .ok ⟨type, quant_algo, group_size⟩ →
        WeightOnlyGroupwiseQuantMatmulPluginCreator.createPlugin indeterminate fc
          = .ok none) ∧
      (∀ data length, readInt32 data 0 = type.val → readInt32 data 4 = quant_algo →
        readInt32 data 8 = group_size →
        WeightOnlyGroupwiseQuantMatmulPluginCreator.deserializePlugin data length
          = .ok none)) := by
  refine ⟨⟨?_, ?_⟩, ?_⟩
  · rintro ⟨p, hp⟩
    exact (init_fields hp).1
  · intro ht
    rw [ht]
    exact init_kHALF_isOk _ _
  · intro hne
    have herr := init_error_of_ne hne quant_algo group_size
    refine ⟨herr, herr, ?_, ?_⟩
    · intro indeterminate fc hfc
      unfold WeightOnlyGroupwiseQuantMatmulPluginCreator.createPlugin
      rw [hfc]
      simp only [construct, herr]
      rfl
    · intro data length h0 h4 h8
      unfold WeightOnlyGroupwiseQuantMatmulPluginCreator.deserializePlugin
      rw [constructFromBuffer_eq, h0, h4, h8]
      have heta : (⟨type.val⟩ : DataType) = type := rfl
      rw [heta, herr]
      rfl

/-- C9 at the type `kFLOAT`: `init` fails, `createPlugin` on the fields
`type_id = 0, quant_algo = 0, group_size = 128` returns the null pointer, and so does
`deserializePlugin` on the twelve bytes of `(kFLOAT, 0, 128)`. -/
theorem unsupported_type_rejected_witness :
    init DataType.kFLOAT 0 128 = .error Fault.pluginAssert ∧
    WeightOnlyGroupwiseQuantMatmulPluginCreator.createPlugin ⟨DataType.kHALF, 7, 64⟩
      [⟨"type_id", 0, .kINT32⟩, ⟨"quant_algo", 0, .kINT32⟩, ⟨"group_size", 128, .kINT32⟩]
      = .ok none ∧
    WeightOnlyGroupwiseQuantMatmulPluginCreator.deserializePlugin
      (memoryOf [0, 0, 0, 0, 0, 0, 0, 0, 128, 0, 0, 0]) 12 = .ok none :=
  have h := (unsupported_type_rejected DataType.kFLOAT 0 128).2 (by decide)
  ⟨h.1, h.2.2.1 _ _ rfl, h.2.2.2 _ _ (by decide) (by decide) (by decide)⟩

/-! ### C10 -/

/-- C10. For every constructed plugin and every valid `enqueue` call, the one matmul kernel
launched receives `M` = the product of all activation dimensions except the last, `N` = 8
times the weights' second dimension (both as an `int`, exact whenever they fit), `K` = the
activations' last dimension, and `mGroupSize`; these come from the descriptors of the
call: the outcome of `enqueue` does not depend on the configured `m_workspaceMaxSize`. -/
theorem enqueue_problem_size (SMALL_M_FAST_PATH : Int) (rws : RunnerWorkspaceSize)
    (p : WeightOnlyGroupwiseQuantMatmulPlugin) (hp : Constructed p)
    (inputDesc : List PluginTensorDesc) (inputs outputs : List Ptr) (workspace : Ptr)
    (hv : ValidEnqueueCall p inputDesc inputs outputs) :
    ∃ r launch,
      enqueue SMALL_M_FAST_PATH rws p inputDesc inputs outputs workspace = .ok r ∧
      matmulLaunches r = [launch] ∧
      launch.problem = some (wrapInt32 (activationRows inputDesc),
        wrapInt32 (8 * weightsPackedCols p inputDesc), activationCols inputDesc,
        p.mGroupSize) ∧
      (InInt32 (activationRows inputDesc) →
        wrapInt32 (activationRows inputDesc) = activationRows inputDesc) ∧
      (InInt32 (8 * weightsPackedCols p inputDesc) →
        wrapInt32 (8 * weightsPackedCols p inputDesc) = 8 * weightsPackedCols p inputDesc) ∧
      ∀ maxSize, enqueue SMALL_M_FAST_PATH rws { p with m_workspaceMaxSize := maxSize }
        inputDesc inputs outputs workspace = .ok r := by
  obtain ⟨r, launch, hr, -, hl, -, -, hprob⟩ :=
    enqueue_matmul SMALL_M_FAST_PATH rws p hp inputDesc inputs outputs workspace hv
  refine ⟨r, launch, hr, hl, ?_, fun h => wrapInt32_of_inInt32 h,
    fun h => wrapInt32_of_inInt32 h, ?_⟩
  · rw [hprob, leadingDimsProduct_eq]
    unfold mulInt32 activationRows
    rw [mul_comm]
  · intro maxSize
    rw [← hr]
    rfl

/-- C10 at activations `[2, 3, 64]`, weights `[64, 32]` and group size 128, after the
plugin was configured for a larger maximum: the kernel receives `(6, 256, 64, 128)`. -/
theorem enqueue_problem_size_witness :
    ∃ r launch,
      enqueue 5 (fun _ _ _ _ => 0)
        ⟨DataType.kHALF, 0, 128, 0, 1, 2, 2, 2, .FINEGRAINED_SCALE_ONLY, some 1048576⟩
        [⟨[2, 3, 64], DataType.kHALF, TensorFormat.kLINEAR⟩,
          ⟨[64, 32], DataType.kFLOAT, TensorFormat.kLINEAR⟩,
          ⟨[1, 256], DataType.kHALF, TensorFormat.kLINEAR⟩]
        [1000, 2000, 3000] [4000] 5000 = .ok r ∧
      matmulLaunches r = [launch] ∧ launch.problem = some (6, 256, 64, 128) := by
  obtain ⟨r, launch, hr, hl, hprob, -⟩ := enqueue_problem_size 5 (fun _ _ _ _ => 0)
    ⟨DataType.kHALF, 0, 128, 0, 1, 2, 2, 2, .FINEGRAINED_SCALE_ONLY, some 1048576⟩
    ⟨DataType.kHALF, 0, 128, rfl⟩
    [⟨[2, 3, 64], DataType.kHALF, TensorFormat.kLINEAR⟩,
      ⟨[64, 32], DataType.kFLOAT, TensorFormat.kLINEAR⟩,
      ⟨[1, 256], DataType.kHALF, TensorFormat.kLINEAR⟩]
    [1000, 2000, 3000] [4000] 5000 (by decide)
  exact ⟨r, launch, hr, hl, hprob⟩

/-! ### Facts about the arguments of the launches -/

theorem inputAt_of_readAt {inputs : List Ptr} {i : Int} {x : Ptr}
    (h : readAt inputs i = .ok x) : inputAt inputs i = x :=
  getD_of_readAt nullptr h

/-- The launches of a valid call of a constructed plugin, with their arguments. -/
theorem enqueue_launch_args (T : Int) (rws : RunnerWorkspaceSize)
    (p : WeightOnlyGroupwiseQuantMatmulPlugin) (hp : Constructed p)
    (inputDesc : List PluginTensorDesc) (inputs outputs : List Ptr) (workspace : Ptr)
    (hv : ValidEnqueueCall p inputDesc inputs outputs) :
    ∃ r launch, enqueue T rws p inputDesc inputs outputs workspace = .ok r ∧
      r.launches = (if hasFlag p.mQuantAlgo PRE_SCALE_QUANT then
          [KernelLaunch.apply_per_channel_scale workspace (inputAt inputs 0)
            (inputAt inputs p.mPreQuantScaleInputIdx)
            (leadingDimsProduct (shapeOf inputDesc 0)) (activationCols inputDesc)]
        else []) ++ [launch] ∧
      matmulLaunches r = [launch] ∧
      launch.isMatmul = true ∧
      launch.isTiled = decide (¬ leadingDimsProduct (shapeOf inputDesc 0) < T) ∧
      launch.weightPtr = some (inputAt inputs p.mWeightInputIdx) ∧
      launch.scalesPtr = some (inputAt inputs p.mScalesInputIdx) ∧
      launch.zerosPtr = some (if hasFlag p.mQuantAlgo ZER0 then
        inputAt inputs p.mZerosInputIdx else nullptr) ∧
      launch.biasPtr = some (if hasFlag p.mQuantAlgo BIAS then
        inputAt inputs p.mBiasesInputIdx else nullptr) ∧
      launch.actPtr = some (if hasFlag p.mQuantAlgo PRE_SCALE_QUANT then
        workspace else inputAt inputs 0) ∧
      launch.problem = some (leadingDimsProduct (shapeOf inputDesc 0),
        mulInt32 (weightsPackedCols p inputDesc) 8, activationCols inputDesc, p.mGroupSize) ∧
      launch.scratch = (if leadingDimsProduct (shapeOf inputDesc 0) < T then none else
        some (wrapSizeT (workspace + wrapSizeT (toSizeT (mulInt32
            (leadingDimsProduct (shapeOf inputDesc 0)) (activationCols inputDesc))
            * sizeofHalf)),
          sizeTToInt (rws p.m_weightOnlyGroupwiseGemmRunner
            (leadingDimsProduct (shapeOf inputDesc 0)) (weightsPackedCols p inputDesc)
            (activationCols inputDesc)))) := by
  obtain ⟨in0, inPre, inW, inS, inZ, inB, out0, h0, hPre, hW, hS, hZ, hB, -, scaling, launch,
    heq, hsc, hla⟩ := enqueue_eq T rws p hp inputDesc inputs outputs workspace hv
  rw [inputAt_of_readAt h0, inputAt_of_readAt hPre, inputAt_of_readAt hW,
    inputAt_of_readAt hS, inputAt_of_readAt hZ, inputAt_of_readAt hB]
  have hmat : launch.isMatmul = true := by
    rw [hla]
    by_cases hm : leadingDimsProduct (shapeOf inputDesc 0) < T
    · rw [if_pos hm]; rfl
    · rw [if_neg hm]; rfl
  refine ⟨_, launch, heq, ?_, ?_, hmat, ?_, ?_, ?_, ?_, ?_, ?_, ?_, ?_⟩
  · rw [hsc]
  · apply matmulLaunches_append_single _ _ _ _ hmat
    intro l hl
    rw [hsc] at hl
    by_cases hf : hasFlag p.mQuantAlgo PRE_SCALE_QUANT = true
    · rw [if_pos hf] at hl
      simp only [List.mem_singleton] at hl
      subst hl
      rfl
    · rw [if_neg hf] at hl
      cases hl
  all_goals
    rw [hla]
    by_cases hm : leadingDimsProduct (shapeOf inputDesc 0) < T
    · simp only [if_pos hm]
      first | rfl | simp [KernelLaunch.isTiled, hm]
    · simp only [if_neg hm]
      first | rfl | simp [KernelLaunch.isTiled, hm]

/-! ### C11 -/

/-- C11. For every constructed plugin and every valid `enqueue` call, the one matmul kernel
launched, whichever it is, receives as zero-point pointer `nullptr` if the ZERO flag is
unset and `inputs[mZerosInputIdx]` if it is set, as bias pointer `nullptr` if the BIAS flag
is unset and `inputs[mBiasesInputIdx]` if it is set, and as weight and scale pointers
`inputs[mWeightInputIdx]` and `inputs[mScalesInputIdx]`. -/
theorem enqueue_zero_bias_weight_scale_pointers (SMALL_M_FAST_PATH : Int)
    (rws : RunnerWorkspaceSize) (p : WeightOnlyGroupwiseQuantMatmulPlugin)
    (hp : Constructed p) (inputDesc : List PluginTensorDesc) (inputs outputs : List Ptr)
    (workspace : Ptr) (hv : ValidEnqueueCall p inputDesc inputs outputs) :
    ∃ r launch,
      enqueue SMALL_M_FAST_PATH rws p inputDesc inputs outputs workspace = .ok r ∧
      matmulLaunches r = [launch] ∧
      launch.zerosPtr = some (if hasFlag p.mQuantAlgo ZER0 then
        inputAt inputs p.mZerosInputIdx else nullptr) ∧
      launch.biasPtr = some (if hasFlag p.mQuantAlgo BIAS then
        inputAt inputs p.mBiasesInputIdx else nullptr) ∧
      launch.weightPtr = some (inputAt inputs p.mWeightInputIdx) ∧
      launch.scalesPtr = some (inputAt inputs p.mScalesInputIdx) := by
  obtain ⟨r, launch, hr, -, hm, -, -, hw, hs, hz, hb, -, -, -⟩ :=
    enqueue_launch_args SMALL_M_FAST_PATH rws p hp inputDesc inputs outputs workspace hv
  exact ⟨r, launch, hr, hm, hz, hb, hw, hs⟩

/-- C11 with zeros and bias (`quant_algo = 3`, tiled kernel) and with neither
(`quant_algo = 0`, direct kernel): the pointers are `inputs[3]`, `inputs[4]`, and null. -/
theorem enqueue_zero_bias_weight_scale_pointers_witness :
    (∃ r launch,
      enqueue 5 (fun _ _ _ _ => 0)
        ⟨DataType.kHALF, 3, 128, 0, 1, 2, 3, 4, .FINEGRAINED_SCALE_AND_ZEROS, none⟩
        [⟨[8, 64], DataType.kHALF, TensorFormat.kLINEAR⟩,
          ⟨[64, 32], DataType.kFLOAT, TensorFormat.kLINEAR⟩,
          ⟨[1, 256], DataType.kHALF, TensorFormat.kLINEAR⟩,
          ⟨[1, 256], DataType.kHALF, TensorFormat.kLINEAR⟩,
          ⟨[8], DataType.kHALF, TensorFormat.kLINEAR⟩]
        [1000, 2000, 3000, 4000, 5000] [6000] 7000 = .ok r ∧
      matmulLaunches r = [launch] ∧ launch.zerosPtr = some 4000 ∧
      launch.biasPtr = some 5000 ∧ launch.weightPtr = some 2000 ∧
      launch.scalesPtr = some 3000) ∧
    (∃ r launch,
      enqueue 5 (fun _ _ _ _ => 0)
        ⟨DataType.kHALF, 0, 128, 0, 1, 2, 2, 2, .FINEGRAINED_SCALE_ONLY, none⟩
        [⟨[4, 64], DataType.kHALF, TensorFormat.kLINEAR⟩,
          ⟨[64, 32], DataType.kFLOAT, TensorFormat.kLINEAR⟩,
          ⟨[1, 256], DataType.kHALF, TensorFormat.kLINEAR⟩]
        [1000, 2000, 3000] [6000] 7000 = .ok r ∧
      matmulLaunches r = [launch] ∧ launch.zerosPtr = some nullptr ∧
      launch.biasPtr = some nullptr ∧ launch.weightPtr = some 2000 ∧
      launch.scalesPtr = some 3000) :=
  ⟨enqueue_zero_bias_weight_scale_pointers 5 (fun _ _ _ _ => 0)
      ⟨DataType.kHALF, 3, 128, 0, 1, 2, 3, 4, .FINEGRAINED_SCALE_AND_ZEROS, none⟩
      ⟨DataType.kHALF, 3, 128, rfl⟩ _ [1000, 2000, 3000, 4000, 5000] [6000] 7000 (by decide),
   enqueue_zero_bias_weight_scale_pointers 5 (fun _ _ _ _ => 0)
      ⟨DataType.kHALF, 0, 128, 0, 1, 2, 2, 2, .FINEGRAINED_SCALE_ONLY, none⟩
      ⟨DataType.kHALF, 0, 128, rfl⟩ _ [1000, 2000, 3000] [6000] 7000 (by decide)⟩

/-! ### C12 -/

/-- C12. For every constructed plugin and every valid `enqueue` call, the kernels launched
are, in order, the per-channel scaling kernel if and only if the PRE_SCALE flag is set,
reading `inputs[0]` and `inputs[mPreQuantScaleInputIdx]` with dimensions `(M, K)` and
writing at the start of the workspace, and then the matmul kernel, whose activation
pointer is the workspace when the flag is set and `inputs[0]` when it is unset. Here `M`
is the product of the leading activation dimensions as an `int`. -/
theorem enqueue_pre_scale_then_matmul (SMALL_M_FAST_PATH : Int)
    (rws : RunnerWorkspaceSize) (p : WeightOnlyGroupwiseQuantMatmulPlugin)
    (hp : Constructed p) (inputDesc : List PluginTensorDesc) (inputs outputs : List Ptr)
    (workspace : Ptr) (hv : ValidEnqueueCall p inputDesc inputs outputs) :
    ∃ r launch,
      enqueue SMALL_M_FAST_PATH rws p inputDesc inputs outputs workspace = .ok r ∧
      r.launches = (if hasFlag p.mQuantAlgo PRE_SCALE_QUANT then
          [KernelLaunch.apply_per_channel_scale workspace (inputAt inputs 0)
            (inputAt inputs p.mPreQuantScaleInputIdx)
            (wrapInt32 (activationRows inputDesc)) (activationCols inputDesc)]
        else []) ++ [launch] ∧
      launch.isMatmul = true ∧
      launch.actPtr = some (if hasFlag p.mQuantAlgo PRE_SCALE_QUANT then
        workspace else inputAt inputs 0) := by
  obtain ⟨r, launch, hr, hl, -, hm, -, -, -, -, -, ha, -, -⟩ :=
    enqueue_launch_args SMALL_M_FAST_PATH rws p hp inputDesc inputs outputs workspace hv
  rw [leadingDimsProduct_eq] at hl
  exact ⟨r, launch, hr, hl, hm, ha⟩

/-- C12 with the pre-quant scale (`quant_algo = 4`): the scaling kernel runs first, on
`inputs[0]` and `inputs[1]` with dimensions `(8, 64)`, and the matmul reads the workspace;
without it (`quant_algo = 0`) only the matmul runs, on `inputs[0]`. -/
theorem enqueue_pre_scale_then_matmul_witness :
    (∃ r launch,
      enqueue 5 (fun _ _ _ _ => 0)
        ⟨DataType.kHALF, 4, 128, 1, 2, 3, 3, 3, .FINEGRAINED_SCALE_ONLY, none⟩
        [⟨[8, 64], DataType.kHALF, TensorFormat.kLINEAR⟩,
          ⟨[64], DataType.kHALF, TensorFormat.kLINEAR⟩,
          ⟨[64, 32], DataType.kFLOAT, TensorFormat.kLINEAR⟩,
          ⟨[1, 256], DataType.kHALF, TensorFormat.kLINEAR⟩]
        [1000, 1500, 2000, 3000] [6000] 7000 = .ok r ∧
      r.launches = [KernelLaunch.apply_per_channel_scale 7000 1000 1500 8 64, launch] ∧
      launch.isMatmul = true ∧ launch.actPtr = some 7000) ∧
    (∃ r launch,
      enqueue 5 (fun _ _ _ _ => 0)
        ⟨DataType.kHALF, 0, 128, 0, 1, 2, 2, 2, .FINEGRAINED_SCALE_ONLY, none⟩
        [⟨[8, 64], DataType.kHALF, TensorFormat.kLINEAR⟩,
          ⟨[64, 32], DataType.kFLOAT, TensorFormat.kLINEAR⟩,
          ⟨[1, 256], DataType.kHALF, TensorFormat.kLINEAR⟩]
        [1000, 2000, 3000] [6000] 7000 = .ok r ∧
      r.launches = [launch] ∧ launch.isMatmul = true ∧ launch.actPtr = some 1000) :=
  ⟨enqueue_pre_scale_then_matmul 5 (fun _ _ _ _ => 0)
      ⟨DataType.kHALF, 4, 128, 1, 2, 3, 3, 3, .FINEGRAINED_SCALE_ONLY, none⟩
      ⟨DataType.kHALF, 4, 128, rfl⟩ _ [1000, 1500, 2000, 3000] [6000] 7000 (by decide),
   enqueue_pre_scale_then_matmul 5 (fun _ _ _ _ => 0)
      ⟨DataType.kHALF, 0, 128, 0, 1, 2, 2, 2, .FINEGRAINED_SCALE_ONLY, none⟩
      ⟨DataType.kHALF, 0, 128, rfl⟩ _ [1000, 2000, 3000] [6000] 7000 (by decide)⟩

/-! ### C13 -/

/-- C13, what the code does. When the tiled kernel is selected, its scratch region starts
at `workspace + M * K * sizeof(half)` (byte offset `2 * M * K` when nothing overflows), and
its declared size is the runner's workspace size for `(M, n, K)`, where `n` is the weights'
packed second dimension itself, whereas the problem size handed to the kernel has
`N = 8 * n`. -/
theorem enqueue_tiled_scratch (SMALL_M_FAST_PATH : Int)
    (rws : RunnerWorkspaceSize) (p : WeightOnlyGroupwiseQuantMatmulPlugin)
    (hp : Constructed p) (inputDesc : List PluginTensorDesc) (inputs outputs : List Ptr)
    (workspace : Ptr) (hv : ValidEnqueueCall p inputDesc inputs outputs)
    (ht : SMALL_M_FAST_PATH ≤ wrapInt32 (activationRows inputDesc)) :
    ∃ r launch start,
      enqueue SMALL_M_FAST_PATH rws p inputDesc inputs outputs workspace = .ok r ∧
      matmulLaunches r = [launch] ∧ launch.isTiled = true ∧
      launch.problem = some (wrapInt32 (activationRows inputDesc),
        wrapInt32 (8 * weightsPackedCols p inputDesc), activationCols inputDesc,
        p.mGroupSize) ∧
      launch.scratch = some (start, sizeTToInt (rws p.m_weightOnlyGroupwiseGemmRunner
        (wrapInt32 (activationRows inputDesc)) (weightsPackedCols p inputDesc)
        (activationCols inputDesc))) ∧
      start = wrapSizeT (workspace + wrapSizeT (toSizeT (mulInt32
        (wrapInt32 (activationRows inputDesc)) (activationCols inputDesc)) * sizeofHalf)) ∧
      (InInt32 (activationRows inputDesc) →
        InInt32 (activationRows inputDesc * activationCols inputDesc) →
        0 ≤ activationRows inputDesc * activationCols inputDesc →
        (workspace : Int) + 2 * (activationRows inputDesc * activationCols inputDesc)
          < 18446744073709551616 →
        (start : Int)
          = workspace + 2 * (activationRows inputDesc * activationCols inputDesc)) := by
  obtain ⟨r, launch, hr, -, hm, -, htiled, -, -, -, -, -, hprob, hscr⟩ :=
    enqueue_launch_args SMALL_M_FAST_PATH rws p hp inputDesc inputs outputs workspace hv
  rw [leadingDimsProduct_eq] at htiled hprob hscr
  have hnot : ¬ wrapInt32 (shapeOf inputDesc 0).dropLast.prod < SMALL_M_FAST_PATH :=
    not_lt.2 ht
  rw [if_neg hnot] at hscr
  refine ⟨r, launch, _, hr, hm, ?_, ?_, hscr, rfl, ?_⟩
  · rw [htiled]
    simp [hnot]
  · rw [hprob]
    unfold mulInt32 activationRows
    rw [mul_comm]
  · intro h1 h2 h3 h4
    have e1 : wrapInt32 (shapeOf inputDesc 0).dropLast.prod = activationRows inputDesc :=
      wrapInt32_of_inInt32 h1
    rw [e1]
    have e2 : mulInt32 (activationRows inputDesc) (activationCols inputDesc)
        = activationRows inputDesc * activationCols inputDesc := wrapInt32_of_inInt32 h2
    rw [e2]
    generalize activationRows inputDesc * activationCols inputDesc = x at h2 h3 h4 ⊢
    unfold wrapSizeT toSizeT sizeofHalf
    unfold InInt32 at h2
    omega

/-- C13 at activations `[8, 64]`, weights `[64, 32]`, threshold 5 and a runner that reports
`m * n` bytes: the tiled kernel gets the problem size `(8, 256, 64)` and a scratch region
at offset `2 * 8 * 64 = 1024` whose declared size is `8 * 32 = 256`, the runner's size for
the packed `n = 32`, whereas the runner's size for the kernel's `N = 256` is `2048`. -/
theorem enqueue_tiled_scratch_witness :
    (∃ r launch,
      enqueue 5 (fun _ m n _ => (m * n).toNat)
        ⟨DataType.kHALF, 0, 128, 0, 1, 2, 2, 2, .FINEGRAINED_SCALE_ONLY, none⟩
        [⟨[8, 64], DataType.kHALF, TensorFormat.kLINEAR⟩,
          ⟨[64, 32], DataType.kFLOAT, TensorFormat.kLINEAR⟩,
          ⟨[1, 256], DataType.kHALF, TensorFormat.kLINEAR⟩]
        [1000, 2000, 3000] [6000] 7000 = .ok r ∧
      matmulLaunches r = [launch] ∧ launch.isTiled = true ∧
      launch.problem = some (8, 256, 64, 128) ∧
      launch.scratch = some (7000 + 1024, 256)) ∧
    (fun (_ : WeightOnlyQuantOp) (m n _ : Int) => (m * n).toNat)
      .FINEGRAINED_SCALE_ONLY 8 256 64 = 2048 := by
  obtain ⟨r, launch, start, hr, hm, ht, hp, hs, hstart, -⟩ :=
    enqueue_tiled_scratch 5 (fun _ m n _ => (m * n).toNat)
      ⟨DataType.kHALF, 0, 128, 0, 1, 2, 2, 2, .FINEGRAINED_SCALE_ONLY, none⟩
      ⟨DataType.kHALF, 0, 128, rfl⟩
      [⟨[8, 64], DataType.kHALF, TensorFormat.kLINEAR⟩,
        ⟨[64, 32], DataType.kFLOAT, TensorFormat.kLINEAR⟩,
        ⟨[1, 256], DataType.kHALF, TensorFormat.kLINEAR⟩]
      [1000, 2000, 3000] [6000] 7000 (by decide) (by decide)
  have hstart2 : start = 7000 + 1024 := hstart
  subst hstart2
  exact ⟨⟨r, launch, hr, hm, ht, hp, hs⟩, rfl⟩

/-! ### Facts about shapes within their maxima and about `configurePlugin` -/

theorem dimsWithin_prod {d mx : Dims} (h : DimsWithin d mx) :
    0 ≤ d.prod ∧ d.prod ≤ mx.prod := by
  unfold DimsWithin at h
  induction h with
  | nil => simp
  | cons hab _ ih =>
    simp only [List.prod_cons]
    exact ⟨mul_nonneg hab.1 ih.1, mul_le_mul hab.2 ih.2 ih.1 (le_trans hab.1 hab.2)⟩

theorem dimsWithin_dropLast {d mx : Dims} (h : DimsWithin d mx) :
    DimsWithin d.dropLast mx.dropLast := by
  unfold DimsWithin at h ⊢
  rw [List.dropLast_eq_take, List.dropLast_eq_take, ← h.length_eq]
  exact List.forall₂_take _ h

theorem dimsWithin_getLastD {d mx : Dims} (h : DimsWithin d mx) (a b : Int)
    (hab : 0 ≤ a ∧ a ≤ b) : 0 ≤ d.getLastD a ∧ d.getLastD a ≤ mx.getLastD b := by
  unfold DimsWithin at h
  induction h generalizing a b with
  | nil => simpa using hab
  | cons hxy _ ih =>
    simp only [List.getLastD_cons]
    exact ih _ _ hxy

theorem dimsWithin_getD {d mx : Dims} (h : DimsWithin d mx) (i : Nat) :
    0 ≤ d.getD i 0 ∧ d.getD i 0 ≤ mx.getD i 0 := by
  unfold DimsWithin at h
  induction h generalizing i with
  | nil => simp
  | cons hxy _ ih =>
    cases i with
    | zero => simpa using hxy
    | succ j => simpa using ih j

/-- The value that `configurePlugin` stores when nothing overflows. -/
theorem configurePlugin_of_noOverflow (rws : RunnerWorkspaceSize)
    (p : WeightOnlyGroupwiseQuantMatmulPlugin) (inp : List DynamicPluginTensorDesc)
    (in0 inW : DynamicPluginTensorDesc)
    (h0 : readAt inp 0 = .ok in0) (hW : readAt inp p.mWeightInputIdx = .ok inW)
    (hr : 1 ≤ in0.max.length) (hw : 2 ≤ inW.max.length)
    (hno : NoOverflowAtConfigure rws p in0 inW) :
    ∃ size : Nat,
      configurePlugin rws p inp = .ok { p with m_workspaceMaxSize := some size } ∧
      (size : Int) = exactWorkspaceSize rws p in0 inW := by
  obtain ⟨hM, hN, hMK, hS, hpos, hsum⟩ := hno
  unfold exactWorkspaceSize at hpos hsum ⊢
  unfold maxM maxK maxN elementSize at *
  obtain ⟨k, hk⟩ := readAt_of_lt in0.max ((in0.max.length : Int) - 1) (by omega) (by omega)
  obtain ⟨w1, hw1⟩ := readAt_of_lt inW.max 1 (by decide) (by omega)
  have hkeq : in0.max.getLastD 0 = k := getLastD_of_readAt hk
  have hweq : inW.max.getD 1 0 = w1 := getD_of_readAt 0 hw1
  subst hkeq
  subst hweq
  have hMeq : leadingDimsProduct in0.max = in0.max.dropLast.prod := by
    rw [leadingDimsProduct_eq]
    exact wrapInt32_of_inInt32 hM
  have hNeq : mulInt32 (inW.max.getD 1 0) 8 = 8 * inW.max.getD 1 0 := by
    unfold mulInt32
    rw [mul_comm]
    exact wrapInt32_of_inInt32 hN
  have hMKeq : mulInt32 in0.max.dropLast.prod (in0.max.getLastD 0)
      = in0.max.dropLast.prod * in0.max.getLastD 0 := wrapInt32_of_inInt32 hMK
  have hSeq : mulInt32 (in0.max.dropLast.prod * in0.max.getLastD 0)
      (if in0.desc.type = DataType.kFLOAT then 4 else 2)
      = in0.max.dropLast.prod * in0.max.getLastD 0
        * (if in0.desc.type = DataType.kFLOAT then 4 else 2) := wrapInt32_of_inInt32 hS
  refine ⟨wrapSizeT (toSizeT (in0.max.dropLast.prod * in0.max.getLastD 0
        * (if in0.desc.type = DataType.kFLOAT then 4 else 2))
        + rws p.m_weightOnlyGroupwiseGemmRunner in0.max.dropLast.prod
            (8 * inW.max.getD 1 0) (in0.max.getLastD 0)), ?_, ?_⟩
  · simp only [configurePlugin, h0, hW, hk, hw1, bind, Except.bind, pure, Except.pure, hMeq,
      hNeq, hMKeq, hSeq]
  · generalize in0.max.dropLast.prod * in0.max.getLastD 0
      * (if in0.desc.type = DataType.kFLOAT then 4 else 2) = x at hpos hsum ⊢
    generalize rws p.m_weightOnlyGroupwiseGemmRunner in0.max.dropLast.prod
      (8 * inW.max.getD 1 0) (in0.max.getLastD 0) = y at hpos hsum ⊢
    unfold wrapSizeT toSizeT
    omega

/-- The sizes of a call whose shapes are within the configured maxima. -/
theorem call_within_maxima (rws : RunnerWorkspaceSize)
    (p : WeightOnlyGroupwiseQuantMatmulPlugin) (in0 inW : DynamicPluginTensorDesc)
    (inputDesc : List PluginTensorDesc)
    (hact : DimsWithin (shapeOf inputDesc 0) in0.max)
    (hwt : DimsWithin (shapeOf inputDesc p.mWeightInputIdx.toNat) inW.max)
    (hmono : ∀ op m n k m' n' k', 0 ≤ m → 0 ≤ n → 0 ≤ k → m ≤ m' → n ≤ n' → k ≤ k' →
      rws op m n k ≤ rws op m' n' k')
    (hno : NoOverflowAtConfigure rws p in0 inW) :
    InInt32 (activationRows inputDesc) ∧
    InInt32 (activationRows inputDesc * activationCols inputDesc) ∧
    0 ≤ activationRows inputDesc * activationCols inputDesc ∧
    2 * (activationRows inputDesc * activationCols inputDesc)
      + (rws p.m_weightOnlyGroupwiseGemmRunner (activationRows inputDesc)
          (weightsPackedCols p inputDesc) (activationCols inputDesc) : Int)
      ≤ exactWorkspaceSize rws p in0 inW := by
  obtain ⟨hM, hN, hMK, hS, -, -⟩ := hno
  obtain ⟨hr0, hr1⟩ := dimsWithin_prod (dimsWithin_dropLast hact)
  obtain ⟨hk0, hk1⟩ := dimsWithin_getLastD hact 0 0 ⟨le_refl 0, le_refl 0⟩
  obtain ⟨hn0, hn1⟩ := dimsWithin_getD hwt 1
  have hrows : activationRows inputDesc = (shapeOf inputDesc 0).dropLast.prod := rfl
  have hcols : activationCols inputDesc = (shapeOf inputDesc 0).getLastD 0 := rfl
  have hpack : weightsPackedCols p inputDesc
      = (shapeOf inputDesc p.mWeightInputIdx.toNat).getD 1 0 := rfl
  have hmaxM : maxM in0 = in0.max.dropLast.prod := rfl
  have hmaxK : maxK in0 = in0.max.getLastD 0 := rfl
  have hmaxN : maxN inW = 8 * inW.max.getD 1 0 := rfl
  rw [← hrows] at hr0 hr1
  rw [← hcols] at hk0 hk1
  rw [← hpack] at hn0 hn1
  rw [← hmaxM] at hr1
  rw [← hmaxK] at hk1
  have hnN : weightsPackedCols p inputDesc ≤ maxN inW := by rw [hmaxN]; omega
  have hprod0 : 0 ≤ activationRows inputDesc * activationCols inputDesc :=
    mul_nonneg hr0 hk0
  have hprod1 : activationRows inputDesc * activationCols inputDesc
      ≤ maxM in0 * maxK in0 :=
    mul_le_mul hr1 hk1 hk0 (le_trans hr0 hr1)
  have hel : 2 ≤ elementSize in0 := by
    unfold elementSize
    split <;> decide
  have hbig : 2 * (activationRows inputDesc * activationCols inputDesc)
      ≤ maxM in0 * maxK in0 * elementSize in0 := by
    have h1 : maxM in0 * maxK in0 * 2 ≤ maxM in0 * maxK in0 * elementSize in0 :=
      mul_le_mul_of_nonneg_left hel (le_trans hprod0 hprod1)
    omega
  have hrws := hmono p.m_weightOnlyGroupwiseGemmRunner (activationRows inputDesc)
    (weightsPackedCols p inputDesc) (activationCols inputDesc) (maxM in0) (maxN inW)
    (maxK in0) hr0 hn0 hk0 hr1 hnN hk1
  have hrwsInt : (rws p.m_weightOnlyGroupwiseGemmRunner (activationRows inputDesc)
      (weightsPackedCols p inputDesc) (activationCols inputDesc) : Int)
      ≤ (rws p.m_weightOnlyGroupwiseGemmRunner (maxM in0) (maxN inW) (maxK in0) : Int) := by
    exact_mod_cast hrws
  unfold InInt32 at hM hMK ⊢
  refine ⟨⟨by omega, by omega⟩, ⟨by omega, by omega⟩, hprod0, ?_⟩
  unfold exactWorkspaceSize
  omega

/-- The address `workspace + m * k * sizeof(half)` when nothing overflows. -/
theorem scratch_start_eq (workspace : Ptr) (x : Int) (h0 : 0 ≤ x)
    (h1 : (workspace : Int) + 2 * x < 18446744073709551616) :
    ((wrapSizeT (workspace + wrapSizeT (toSizeT x * sizeofHalf)) : Nat) : Int)
      = workspace + 2 * x := by
  unfold wrapSizeT toSizeT sizeofHalf
  omega

/-! ### C14 -/

/-- C14. Let a constructed plugin be configured with maximum shapes, and let a valid
`enqueue` call have activation and weight dimensions that are non-negative and at most the
corresponding maximum dimensions. Assume that the runner's workspace size is
non-decreasing in each argument, that no integer overflows (at `configurePlugin`, and the
size the runner reports for the call fits in an `int`), and that the configured number of
bytes at `workspace` lies in the address space. Then `configurePlugin` stores a size, the
call runs, the scaling kernel (if launched) writes `M * K` halves at the start of the
workspace with `2 * M * K` at most the stored size, and the scratch region that the tiled
kernel (if launched) is given starts at offset `2 * M * K` and ends, with the size that
`enqueue` declares, within the stored size. -/
theorem workspace_covers_enqueue (SMALL_M_FAST_PATH : Int) (rws : RunnerWorkspaceSize)
    (p : WeightOnlyGroupwiseQuantMatmulPlugin) (hp : Constructed p)
    (inp : List DynamicPluginTensorDesc) (in0 inW : DynamicPluginTensorDesc)
    (h0 : readAt inp 0 = .ok in0) (hW : readAt inp p.mWeightInputIdx = .ok inW)
    (inputDesc : List PluginTensorDesc) (inputs outputs : List Ptr) (workspace : Ptr)
    (hv : ValidEnqueueCall p inputDesc inputs outputs)
    (hact : DimsWithin (shapeOf inputDesc 0) in0.max)
    (hwt : DimsWithin (shapeOf inputDesc p.mWeightInputIdx.toNat) inW.max)
    (hmono : ∀ op m n k m' n' k', 0 ≤ m → 0 ≤ n → 0 ≤ k → m ≤ m' → n ≤ n' → k ≤ k' →
      rws op m n k ≤ rws op m' n' k')
    (hno : NoOverflowAtConfigure rws p in0 inW)
    (hbytes : InInt32 (rws p.m_weightOnlyGroupwiseGemmRunner (activationRows inputDesc)
      (weightsPackedCols p inputDesc) (activationCols inputDesc)))
    (hbuf : (workspace : Int) + exactWorkspaceSize rws p in0 inW < 18446744073709551616) :
    ∃ (size : Nat) (r : EnqueueResult),
      configurePlugin rws p inp = .ok { p with m_workspaceMaxSize := some size } ∧
      enqueue SMALL_M_FAST_PATH rws { p with m_workspaceMaxSize := some size }
        inputDesc inputs outputs workspace = .ok r ∧
      2 * (activationRows inputDesc * activationCols inputDesc) ≤ (size : Int) ∧
      (∀ out act scale rows cols,
        KernelLaunch.apply_per_channel_scale out act scale rows cols ∈ r.launches →
        out = workspace ∧ rows = activationRows inputDesc ∧
        cols = activationCols inputDesc) ∧
      (∀ launch ∈ r.launches, ∀ start bytes, launch.scratch = some (start, bytes) →
        (start : Int)
          = workspace + 2 * (activationRows inputDesc * activationCols inputDesc) ∧
        0 ≤ bytes ∧ (start : Int) + bytes ≤ workspace + size) := by
  obtain ⟨-, -, -, hra, hrw⟩ := id hv
  have hr : 1 ≤ in0.max.length := by
    have := List.Forall₂.length_eq hact
    omega
  have hw : 2 ≤ inW.max.length := by
    have := List.Forall₂.length_eq hwt
    omega
  obtain ⟨size, hcfg, hsize⟩ := configurePlugin_of_noOverflow rws p inp in0 inW h0 hW hr hw hno
  obtain ⟨hInM, hInMK, hMK0, hle⟩ :=
    call_within_maxima rws p in0 inW inputDesc hact hwt hmono hno
  obtain ⟨r, launch, hrun, hl, -, hmat, -, -, -, -, -, -, -, hscr⟩ :=
    enqueue_launch_args SMALL_M_FAST_PATH rws p hp inputDesc inputs outputs workspace hv
  have hMeq : leadingDimsProduct (shapeOf inputDesc 0) = activationRows inputDesc := by
    rw [leadingDimsProduct_eq]
    exact wrapInt32_of_inInt32 hInM
  rw [hMeq] at hl hscr
  have hrws0 : (0 : Int) ≤ (rws p.m_weightOnlyGroupwiseGemmRunner (activationRows inputDesc)
      (weightsPackedCols p inputDesc) (activationCols inputDesc) : Int) :=
    Int.ofNat_nonneg _
  have hrun2 : enqueue SMALL_M_FAST_PATH rws { p with m_workspaceMaxSize := some size }
      inputDesc inputs outputs workspace = .ok r := by
    rw [← hrun]
    rfl
  refine ⟨size, r, hcfg, hrun2, by omega, ?_, ?_⟩
  · intro out act scale rows cols hmem
    rw [hl] at hmem
    rcases List.mem_append.1 hmem with h | h
    · by_cases hf : hasFlag p.mQuantAlgo PRE_SCALE_QUANT = true
      · rw [if_pos hf] at h
        simp only [List.mem_singleton, KernelLaunch.apply_per_channel_scale.injEq] at h
        exact ⟨h.1, h.2.2.2.1, h.2.2.2.2⟩
      · rw [if_neg hf] at h
        cases h
    · simp only [List.mem_singleton] at h
      rw [← h] at hmat
      cases hmat
  · intro launch2 hmem start bytes hs
    rw [hl] at hmem
    rcases List.mem_append.1 hmem with h | h
    · by_cases hf : hasFlag p.mQuantAlgo PRE_SCALE_QUANT = true
      · rw [if_pos hf] at h
        simp only [List.mem_singleton] at h
        rw [h] at hs
        cases hs
      · rw [if_neg hf] at h
        cases h
    · simp only [List.mem_singleton] at h
      rw [h, hscr] at hs
      by_cases hm : activationRows inputDesc < SMALL_M_FAST_PATH
      · rw [if_pos hm] at hs
        cases hs
      · rw [if_neg hm] at hs
        simp only [Option.some.injEq, Prod.mk.injEq] at hs
        obtain ⟨hstart, hb⟩ := hs
        have e2 : mulInt32 (activationRows inputDesc) (activationCols inputDesc)
            = activationRows inputDesc * activationCols inputDesc :=
          wrapInt32_of_inInt32 hInMK
        rw [e2] at hstart
        have e3 : sizeTToInt (rws p.m_weightOnlyGroupwiseGemmRunner
            (activationRows inputDesc) (weightsPackedCols p inputDesc)
            (activationCols inputDesc))
            = (rws p.m_weightOnlyGroupwiseGemmRunner (activationRows inputDesc)
                (weightsPackedCols p inputDesc) (activationCols inputDesc) : Int) :=
          wrapInt32_of_inInt32 hbytes
        rw [e3] at hb
        have hfit : (workspace : Int)
            + 2 * (activationRows inputDesc * activationCols inputDesc)
            < 18446744073709551616 := by linarith
        have hstartI : (start : Int)
            = workspace + 2 * (activationRows inputDesc * activationCols inputDesc) := by
          rw [← hstart]
          exact scratch_start_eq workspace _ hMK0 hfit
        refine ⟨hstartI, ?_, ?_⟩
        · rw [← hb]
          exact hrws0
        · rw [hstartI, ← hb]
          linarith

/-- C14 at maximum activations `[16, 64]`, maximum weights `[64, 32]`, a call with
activations `[8, 64]` and weights `[64, 32]`, threshold 5 and a runner that reports
`m + n + k` bytes: the plugin is configured, the call runs, `2 * (8 * 64)` is at most the
stored size, and the scratch region of the tiled kernel ends within it. -/
theorem workspace_covers_enqueue_witness :
    ∃ (size : Nat) (r : EnqueueResult),
      configurePlugin (fun _ m n k => (m + n + k).toNat)
        ⟨DataType.kHALF, 0, 128, 0, 1, 2, 2, 2, .FINEGRAINED_SCALE_ONLY, none⟩
        [⟨⟨[16, 64], DataType.kHALF, TensorFormat.kLINEAR⟩, [16, 64]⟩,
          ⟨⟨[64, 32], DataType.kFLOAT, TensorFormat.kLINEAR⟩, [64, 32]⟩,
          ⟨⟨[1, 256], DataType.kHALF, TensorFormat.kLINEAR⟩, [1, 256]⟩]
        = .ok ⟨DataType.kHALF, 0, 128, 0, 1, 2, 2, 2, .FINEGRAINED_SCALE_ONLY, some size⟩ ∧
      enqueue 5 (fun _ m n k => (m + n + k).toNat)
        ⟨DataType.kHALF, 0, 128, 0, 1, 2, 2, 2, .FINEGRAINED_SCALE_ONLY, some size⟩
        [⟨[8, 64], DataType.kHALF, TensorFormat.kLINEAR⟩,
          ⟨[64, 32], DataType.kFLOAT, TensorFormat.kLINEAR⟩,
          ⟨[1, 256], DataType.kHALF, TensorFormat.kLINEAR⟩]
        [1000, 2000, 3000] [6000] 7000 = .ok r ∧
      (1024 : Int) ≤ size ∧
      ∀ launch ∈ r.launches, ∀ start bytes, launch.scratch = some (start, bytes) →
        (start : Int) = 7000 + 1024 ∧ 0 ≤ bytes ∧ (start : Int) + bytes ≤ 7000 + size := by
  obtain ⟨size, r, hcfg, hrun, hsz, -, hscr⟩ := workspace_covers_enqueue 5
    (fun _ m n k => (m + n + k).toNat)
    ⟨DataType.kHALF, 0, 128, 0, 1, 2, 2, 2, .FINEGRAINED_SCALE_ONLY, none⟩
    ⟨DataType.kHALF, 0, 128, rfl⟩
    [⟨⟨[16, 64], DataType.kHALF, TensorFormat.kLINEAR⟩, [16, 64]⟩,
      ⟨⟨[64, 32], DataType.kFLOAT, TensorFormat.kLINEAR⟩, [64, 32]⟩,
      ⟨⟨[1, 256], DataType.kHALF, TensorFormat.kLINEAR⟩, [1, 256]⟩]
    ⟨⟨[16, 64], DataType.kHALF, TensorFormat.kLINEAR⟩, [16, 64]⟩
    ⟨⟨[64, 32], DataType.kFLOAT, TensorFormat.kLINEAR⟩, [64, 32]⟩
    rfl rfl
    [⟨[8, 64], DataType.kHALF, TensorFormat.kLINEAR⟩,
      ⟨[64, 32], DataType.kFLOAT, TensorFormat.kLINEAR⟩,
      ⟨[1, 256], DataType.kHALF, TensorFormat.kLINEAR⟩]
    [1000, 2000, 3000] [6000] 7000 (by decide) (by decide) (by decide)
    (fun _ m n k m' n' k' _ _ _ h1 h2 h3 => Int.toNat_le_toNat (by omega))
    (by decide) (by decide) (by decide)
  exact ⟨size, r, hcfg, hrun, hsz, hscr⟩

/-! ### C15 -/

/-- C15, as stated, fails under the `int` arithmetic of the code. With `maxK = 1048576`, the
half element size and a runner that reports 0 bytes, `maxM = 1` gives the size `2097152`
and `maxM' = 2048` gives the size `0`: `2048 * 1048576` and its double wrap around in 32
bits. And with `maxK = -1`, which the claim does not exclude, `maxM = 1` gives
`2 ^ 64 - 2` and `maxM' = 2` gives `2 ^ 64 - 4`. -/
theorem configurePlugin_not_monotone_counterexample :
    (configurePlugin (fun _ _ _ _ => 0)
        ⟨DataType.kHALF, 0, 128, 0, 1, 2, 2, 2, .FINEGRAINED_SCALE_ONLY, none⟩
        [⟨⟨[1, 1048576], DataType.kHALF, TensorFormat.kLINEAR⟩, [1, 1048576]⟩,
          ⟨⟨[1048576, 32], DataType.kFLOAT, TensorFormat.kLINEAR⟩, [1048576, 32]⟩,
          ⟨⟨[8192, 256], DataType.kHALF, TensorFormat.kLINEAR⟩, [8192, 256]⟩]
      = .ok ⟨DataType.kHALF, 0, 128, 0, 1, 2, 2, 2, .FINEGRAINED_SCALE_ONLY, some 2097152⟩ ∧
     configurePlugin (fun _ _ _ _ => 0)
        ⟨DataType.kHALF, 0, 128, 0, 1, 2, 2, 2, .FINEGRAINED_SCALE_ONLY, none⟩
        [⟨⟨[2048, 1048576], DataType.kHALF, TensorFormat.kLINEAR⟩, [2048, 1048576]⟩,
          ⟨⟨[1048576, 32], DataType.kFLOAT, TensorFormat.kLINEAR⟩, [1048576, 32]⟩,
          ⟨⟨[8192, 256], DataType.kHALF, TensorFormat.kLINEAR⟩, [8192, 256]⟩]
      = .ok ⟨DataType.kHALF, 0, 128, 0, 1, 2, 2, 2, .FINEGRAINED_SCALE_ONLY, some 0⟩ ∧
     (0 : Int) ≤ 1 ∧ (1 : Int) ≤ 2048 ∧ ¬ (2097152 ≤ 0)) ∧
    (configurePlugin (fun _ _ _ _ => 0)
        ⟨DataType.kHALF, 0, 128, 0, 1, 2, 2, 2, .FINEGRAINED_SCALE_ONLY, none⟩
        [⟨⟨[1, -1], DataType.kHALF, TensorFormat.kLINEAR⟩, [1, -1]⟩,
          ⟨⟨[64, 32], DataType.kFLOAT, TensorFormat.kLINEAR⟩, [64, 32]⟩,
          ⟨⟨[1, 256], DataType.kHALF, TensorFormat.kLINEAR⟩, [1, 256]⟩]
      = .ok ⟨DataType.kHALF, 0, 128, 0, 1, 2, 2, 2, .FINEGRAINED_SCALE_ONLY,
          some 18446744073709551614⟩ ∧
     configurePlugin (fun _ _ _ _ => 0)
        ⟨DataType.kHALF, 0, 128, 0, 1, 2, 2, 2, .FINEGRAINED_SCALE_ONLY, none⟩
        [⟨⟨[2, -1], DataType.kHALF, TensorFormat.kLINEAR⟩, [2, -1]⟩,
          ⟨⟨[64, 32], DataType.kFLOAT, TensorFormat.kLINEAR⟩, [64, 32]⟩,
          ⟨⟨[1, 256], DataType.kHALF, TensorFormat.kLINEAR⟩, [1, 256]⟩]
      = .ok ⟨DataType.kHALF, 0, 128, 0, 1, 2, 2, 2, .FINEGRAINED_SCALE_ONLY,
          some 18446744073709551612⟩ ∧
     ¬ (18446744073709551614 ≤ 18446744073709551612)) :=
  ⟨⟨rfl, rfl, by decide, by decide, by decide⟩, rfl, rfl, by decide⟩

/-- C15, amended. For maximum activation shapes with products `0 ≤ maxM ≤ maxM'` of the
leading dimensions, the same last dimension `maxK ≥ 0`, the same element size and the same
maximum weights shape, and a runner whose workspace size is non-decreasing in `M`: if no
integer overflows in `configurePlugin` for `maxM'`, then the size stored for `maxM` is at
most the size stored for `maxM'`. -/
theorem configurePlugin_size_monotone (rws : RunnerWorkspaceSize)
    (p : WeightOnlyGroupwiseQuantMatmulPlugin) (inp inp' : List DynamicPluginTensorDesc)
    (in0 in0' inW : DynamicPluginTensorDesc)
    (h0 : readAt inp 0 = .ok in0) (h0' : readAt inp' 0 = .ok in0')
    (hW : readAt inp p.mWeightInputIdx = .ok inW)
    (hW' : readAt inp' p.mWeightInputIdx = .ok inW)
    (hr : 1 ≤ in0.max.length) (hr' : 1 ≤ in0'.max.length) (hw : 2 ≤ inW.max.length)
    (hK : maxK in0 = maxK in0') (hel : elementSize in0 = elementSize in0')
    (hM0 : 0 ≤ maxM in0) (hMM : maxM in0 ≤ maxM in0') (hK0 : 0 ≤ maxK in0)
    (hmono : ∀ op m m' n k, 0 ≤ m → m ≤ m' → rws op m n k ≤ rws op m' n k)
    (hno : NoOverflowAtConfigure rws p in0' inW) :
    ∃ size size' : Nat,
      configurePlugin rws p inp = .ok { p with m_workspaceMaxSize := some size } ∧
      configurePlugin rws p inp' = .ok { p with m_workspaceMaxSize := some size' } ∧
      size ≤ size' := by
  have hel2 : 2 ≤ elementSize in0 := by
    unfold elementSize
    split <;> decide
  have hrws := hmono p.m_weightOnlyGroupwiseGemmRunner (maxM in0) (maxM in0') (maxN inW)
    (maxK in0) hM0 hMM
  have hrwsInt : (rws p.m_weightOnlyGroupwiseGemmRunner (maxM in0) (maxN inW) (maxK in0) : Int)
      ≤ (rws p.m_weightOnlyGroupwiseGemmRunner (maxM in0') (maxN inW) (maxK in0) : Int) := by
    exact_mod_cast hrws
  have hrws0 : (0 : Int)
      ≤ (rws p.m_weightOnlyGroupwiseGemmRunner (maxM in0) (maxN inW) (maxK in0) : Int) :=
    Int.ofNat_nonneg _
  have hMK0 : 0 ≤ maxM in0 * maxK in0 := mul_nonneg hM0 hK0
  have hMK1 : maxM in0 * maxK in0 ≤ maxM in0' * maxK in0 :=
    mul_le_mul_of_nonneg_right hMM hK0
  have hS0 : 0 ≤ maxM in0 * maxK in0 * elementSize in0 := mul_nonneg hMK0 (by omega)
  have hS1 : maxM in0 * maxK in0 * elementSize in0
      ≤ maxM in0' * maxK in0 * elementSize in0 :=
    mul_le_mul_of_nonneg_right hMK1 (by omega)
  have hexact : exactWorkspaceSize rws p in0 inW ≤ exactWorkspaceSize rws p in0' inW := by
    unfold exactWorkspaceSize
    rw [← hK, ← hel]
    linarith
  have hexact0 : 0 ≤ exactWorkspaceSize rws p in0 inW := by
    unfold exactWorkspaceSize
    linarith
  have hno2 : NoOverflowAtConfigure rws p in0 inW := by
    obtain ⟨hM, hN, hMK, hS, -, hsum⟩ := hno
    rw [← hK] at hMK hS
    rw [← hel] at hS
    unfold InInt32 at hM hMK hS
    exact ⟨⟨by omega, by omega⟩, hN, ⟨by omega, by omega⟩, ⟨by omega, by omega⟩, hexact0,
      lt_of_le_of_lt hexact hsum⟩
  obtain ⟨size, hcfg, hsize⟩ :=
    configurePlugin_of_noOverflow rws p inp in0 inW h0 hW hr hw hno2
  obtain ⟨size', hcfg', hsize'⟩ :=
    configurePlugin_of_noOverflow rws p inp' in0' inW h0' hW' hr' hw hno
  refine ⟨size, size', hcfg, hcfg', ?_⟩
  have : (size : Int) ≤ (size' : Int) := by rw [hsize, hsize']; exact hexact
  exact_mod_cast this

/-- C15, amended, at `maxM = 4` and `maxM' = 16` with `maxK = 64`, the half element size,
maximum weights `[64, 32]` and a runner that reports `m` bytes: the sizes are
`4 * 64 * 2 + 4 = 516` and `16 * 64 * 2 + 16 = 2064`. -/
theorem configurePlugin_size_monotone_witness :
    ∃ size size' : Nat,
      configurePlugin (fun _ m _ _ => m.toNat)
        ⟨DataType.kHALF, 0, 128, 0, 1, 2, 2, 2, .FINEGRAINED_SCALE_ONLY, none⟩
        [⟨⟨[4, 64], DataType.kHALF, TensorFormat.kLINEAR⟩, [4, 64]⟩,
          ⟨⟨[64, 32], DataType.kFLOAT, TensorFormat.kLINEAR⟩, [64, 32]⟩,
          ⟨⟨[1, 256], DataType.kHALF, TensorFormat.kLINEAR⟩, [1, 256]⟩]
        = .ok ⟨DataType.kHALF, 0, 128, 0, 1, 2, 2, 2, .FINEGRAINED_SCALE_ONLY, some size⟩ ∧
      configurePlugin (fun _ m _ _ => m.toNat)
        ⟨DataType.kHALF, 0, 128, 0, 1, 2, 2, 2, .FINEGRAINED_SCALE_ONLY, none⟩
        [⟨⟨[16, 64], DataType.kHALF, TensorFormat.kLINEAR⟩, [16, 64]⟩,
          ⟨⟨[64, 32], DataType.kFLOAT, TensorFormat.kLINEAR⟩, [64, 32]⟩,
          ⟨⟨[1, 256], DataType.kHALF, TensorFormat.kLINEAR⟩, [1, 256]⟩]
        = .ok ⟨DataType.kHALF, 0, 128, 0, 1, 2, 2, 2, .FINEGRAINED_SCALE_ONLY, some size'⟩ ∧
      size ≤ size' :=
  configurePlugin_size_monotone (fun _ m _ _ => m.toNat)
    ⟨DataType.kHALF, 0, 128, 0, 1, 2, 2, 2, .FINEGRAINED_SCALE_ONLY, none⟩
    [⟨⟨[4, 64], DataType.kHALF, TensorFormat.kLINEAR⟩, [4, 64]⟩,
      ⟨⟨[64, 32], DataType.kFLOAT, TensorFormat.kLINEAR⟩, [64, 32]⟩,
      ⟨⟨[1, 256], DataType.kHALF, TensorFormat.kLINEAR⟩, [1, 256]⟩]
    [⟨⟨[16, 64], DataType.kHALF, TensorFormat.kLINEAR⟩, [16, 64]⟩,
      ⟨⟨[64, 32], DataType.kFLOAT, TensorFormat.kLINEAR⟩, [64, 32]⟩,
      ⟨⟨[1, 256], DataType.kHALF, TensorFormat.kLINEAR⟩, [1, 256]⟩]
    ⟨⟨[4, 64], DataType.kHALF, TensorFormat.kLINEAR⟩, [4, 64]⟩
    ⟨⟨[16, 64], DataType.kHALF, TensorFormat.kLINEAR⟩, [16, 64]⟩
    ⟨⟨[64, 32], DataType.kFLOAT, TensorFormat.kLINEAR⟩, [64, 32]⟩
    rfl rfl rfl rfl (by decide) (by decide) (by decide) (by decide) (by decide) (by decide)
    (by decide) (by decide) (fun _ _ _ _ _ _ h => Int.toNat_le_toNat h) (by decide)

/-! ### C16 -/

/-- C16, as stated, fails at the weights position. With `quant_algo = 0` the weights are at
position 1. A weights descriptor of the integer type `kINT32` in linear format is
rejected, and a weights descriptor of type `kFLOAT`, which is not an integer type, in
linear format is accepted. -/
theorem supportsFormatCombination_weights_counterexample :
    supportsFormatCombination
        ⟨DataType.kHALF, 0, 128, 0, 1, 2, 2, 2, .FINEGRAINED_SCALE_ONLY, none⟩ 1
        [⟨[8, 64], DataType.kHALF, TensorFormat.kLINEAR⟩,
          ⟨[64, 32], DataType.kINT32, TensorFormat.kLINEAR⟩,
          ⟨[1, 256], DataType.kHALF, TensorFormat.kLINEAR⟩,
          ⟨[8, 256], DataType.kHALF, TensorFormat.kLINEAR⟩] = .ok false ∧
    isIntegerType DataType.kINT32 = true ∧
    supportsFormatCombination
        ⟨DataType.kHALF, 0, 128, 0, 1, 2, 2, 2, .FINEGRAINED_SCALE_ONLY, none⟩ 1
        [⟨[8, 64], DataType.kHALF, TensorFormat.kLINEAR⟩,
          ⟨[64, 32], DataType.kFLOAT, TensorFormat.kLINEAR⟩,
          ⟨[1, 256], DataType.kHALF, TensorFormat.kLINEAR⟩,
          ⟨[8, 256], DataType.kHALF, TensorFormat.kLINEAR⟩] = .ok true ∧
    isIntegerType DataType.kFLOAT = false :=
  ⟨rfl, rfl, rfl, rfl⟩

/-- C16, amended. For every position `pos` in `[0, mBiasesInputIdx + 1]` of a descriptor list
with one entry for each input and the output, `supportsFormatCombination` returns, and it
returns true exactly when: at `pos = mWeightInputIdx` the descriptor's type is `kFLOAT`
(the 32-bit type in which the packed weights are passed) and its format is linear; at
every other position the descriptor's type is `mType` and its format is linear. -/
theorem supportsFormatCombination_true_iff (p : WeightOnlyGroupwiseQuantMatmulPlugin)
    (pos : Int) (inOut : List PluginTensorDesc) (h0 : 0 ≤ pos)
    (h1 : pos ≤ p.mBiasesInputIdx + 1)
    (hlen : (inOut.length : Int) = p.mBiasesInputIdx + 2) :
    ∃ desc result, readAt inOut pos = .ok desc ∧
      supportsFormatCombination p pos inOut = .ok result ∧
      (result = true ↔
        if pos = p.mWeightInputIdx then
          desc.type = DataType.kFLOAT ∧ desc.format = TensorFormat.kLINEAR
        else desc.type = p.mType ∧ desc.format = TensorFormat.kLINEAR) := by
  obtain ⟨desc, hd⟩ := readAt_of_lt inOut pos h0 (by omega)
  have hlt : pos < p.mBiasesInputIdx + 2 := by omega
  by_cases hw : pos = p.mWeightInputIdx
  · refine ⟨desc, desc.type == DataType.kFLOAT && desc.format == TensorFormat.kLINEAR, hd,
      ?_, ?_⟩
    · unfold supportsFormatCombination
      rw [if_pos hlt, if_pos hw, ← hw, hd]
      rfl
    · rw [if_pos hw]
      simp
  · refine ⟨desc, desc.type == p.mType && desc.format == TensorFormat.kLINEAR, hd, ?_, ?_⟩
    · unfold supportsFormatCombination
      rw [if_pos hlt, if_neg hw, hd]
      rfl
    · rw [if_neg hw]
      simp

/-- C16, amended, with `quant_algo = 0`: the weights position 1 accepts `kFLOAT` in linear
format, and the output position 3 accepts `kHALF` in linear format. -/
theorem supportsFormatCombination_true_iff_witness :
    supportsFormatCombination
        ⟨DataType.kHALF, 0, 128, 0, 1, 2, 2, 2, .FINEGRAINED_SCALE_ONLY, none⟩ 1
        [⟨[8, 64], DataType.kHALF, TensorFormat.kLINEAR⟩,
          ⟨[64, 32], DataType.kFLOAT, TensorFormat.kLINEAR⟩,
          ⟨[1, 256], DataType.kHALF, TensorFormat.kLINEAR⟩,
          ⟨[8, 256], DataType.kHALF, TensorFormat.kLINEAR⟩] = .ok true ∧
    supportsFormatCombination
        ⟨DataType.kHALF, 0, 128, 0, 1, 2, 2, 2, .FINEGRAINED_SCALE_ONLY, none⟩ 3
        [⟨[8, 64], DataType.kHALF, TensorFormat.kLINEAR⟩,
          ⟨[64, 32], DataType.kFLOAT, TensorFormat.kLINEAR⟩,
          ⟨[1, 256], DataType.kHALF, TensorFormat.kLINEAR⟩,
          ⟨[8, 256], DataType.kHALF, TensorFormat.kLINEAR⟩] = .ok true := by
  obtain ⟨desc, result, hd, hs, hiff⟩ := supportsFormatCombination_true_iff
    ⟨DataType.kHALF, 0, 128, 0, 1, 2, 2, 2, .FINEGRAINED_SCALE_ONLY, none⟩ 1
    [⟨[8, 64], DataType.kHALF, TensorFormat.kLINEAR⟩,
      ⟨[64, 32], DataType.kFLOAT, TensorFormat.kLINEAR⟩,
      ⟨[1, 256], DataType.kHALF, TensorFormat.kLINEAR⟩,
      ⟨[8, 256], DataType.kHALF, TensorFormat.kLINEAR⟩] (by decide) (by decide) (by decide)
  obtain ⟨desc3, result3, hd3, hs3, hiff3⟩ := supportsFormatCombination_true_iff
    ⟨DataType.kHALF, 0, 128, 0, 1, 2, 2, 2, .FINEGRAINED_SCALE_ONLY, none⟩ 3
    [⟨[8, 64], DataType.kHALF, TensorFormat.kLINEAR⟩,
      ⟨[64, 32], DataType.kFLOAT, TensorFormat.kLINEAR⟩,
      ⟨[1, 256], DataType.kHALF, TensorFormat.kLINEAR⟩,
      ⟨[8, 256], DataType.kHALF, TensorFormat.kLINEAR⟩] (by decide) (by decide) (by decide)
  cases hd
  cases hd3
  have hr : result = true := hiff.2 (by decide)
  have hr3 : result3 = true := hiff3.2 (by decide)
  subst hr
  subst hr3
  exact ⟨hs, hs3⟩

/-! ### Facts about `createPlugin` -/

theorem fieldValue_cons_of_ne (name : String) (field : PluginField) (rest : List PluginField)
    (h : field.name ≠ name) : fieldValue name (field :: rest) = fieldValue name rest := by
  simp only [fieldValue, if_neg h]
  cases fieldValue name rest <;> rfl

theorem fieldValue_cons_of_eq (name : String) (field : PluginField) (rest : List PluginField)
    (h : field.name = name) :
    fieldValue name (field :: rest) = some ((fieldValue name rest).getD field.data) := by
  simp only [fieldValue, if_pos h]
  cases fieldValue name rest <;> rfl

/-- The locals after the field loop: each holds the value of the last field of its name,
and what it held before the loop when there is no such field. -/
theorem readFields_eq (fc : List PluginField)
    (hint : ∀ f ∈ fc, f.name = "quant_algo" ∨ f.name = "group_size" ∨ f.name = "type_id" →
      f.type = PluginFieldType.kINT32)
    (acc : WeightOnlyGroupwiseQuantMatmulPluginCreator.Locals) :
    WeightOnlyGroupwiseQuantMatmulPluginCreator.readFields acc fc
      = .ok ⟨⟨(fieldValue "type_id" fc).getD acc.type.val⟩,
          (fieldValue "quant_algo" fc).getD acc.QuantAlgo,
          (fieldValue "group_size" fc).getD acc.GroupSize⟩ := by
  induction fc generalizing acc with
  | nil => rfl
  | cons f rest ih =>
    have hrest : ∀ g ∈ rest, g.name = "quant_algo" ∨ g.name = "group_size"
        ∨ g.name = "type_id" → g.type = PluginFieldType.kINT32 :=
      fun g hg => hint g (List.mem_cons_of_mem _ hg)
    have hf := hint f (List.mem_cons_self _ _)
    unfold WeightOnlyGroupwiseQuantMatmulPluginCreator.readFields
    by_cases h1 : f.name = "quant_algo"
    · have hty := hf (Or.inl h1)
      have n2 : f.name ≠ "group_size" := by rw [h1]; decide
      have n3 : f.name ≠ "type_id" := by rw [h1]; decide
      rw [fieldValue_cons_of_eq _ _ _ h1, fieldValue_cons_of_ne _ _ _ n2,
        fieldValue_cons_of_ne _ _ _ n3]
      simp only [WeightOnlyGroupwiseQuantMatmulPluginCreator.readField, if_pos h1, hty,
        PLUGIN_ASSERT, bind, Except.bind, pure, Except.pure, beq_self_eq_true, if_true]
      rw [ih hrest]
      rfl
    · by_cases h2 : f.name = "group_size"
      · have hty := hf (Or.inr (Or.inl h2))
        have n3 : f.name ≠ "type_id" := by rw [h2]; decide
        rw [fieldValue_cons_of_ne _ _ _ h1, fieldValue_cons_of_eq _ _ _ h2,
          fieldValue_cons_of_ne _ _ _ n3]
        simp only [WeightOnlyGroupwiseQuantMatmulPluginCreator.readField, if_neg h1,
          if_pos h2, hty, PLUGIN_ASSERT, bind, Except.bind, pure, Except.pure,
          beq_self_eq_true, if_true]
        rw [ih hrest]
        rfl
      · by_cases h3 : f.name = "type_id"
        · have hty := hf (Or.inr (Or.inr h3))
          rw [fieldValue_cons_of_ne _ _ _ h1, fieldValue_cons_of_ne _ _ _ h2,
            fieldValue_cons_of_eq _ _ _ h3]
          simp only [WeightOnlyGroupwiseQuantMatmulPluginCreator.readField, if_neg h1,
            if_neg h2, if_pos h3, hty, PLUGIN_ASSERT, bind, Except.bind, pure, Except.pure,
            beq_self_eq_true, if_true]
          rw [ih hrest]
          rfl
        · rw [fieldValue_cons_of_ne _ _ _ h1, fieldValue_cons_of_ne _ _ _ h2,
            fieldValue_cons_of_ne _ _ _ h3]
          simp only [WeightOnlyGroupwiseQuantMatmulPluginCreator.readField, if_neg h1,
            if_neg h2, if_neg h3, bind, Except.bind, pure, Except.pure]
          rw [ih hrest]

/-! ### C17 -/

/-- C17, as stated, fails: `createPlugin` does not look whether a field is present. The
collection that holds only `type_id = 1` (`kHALF`) misses `quant_algo` and `group_size`,
yet a plugin is constructed whatever the locals hold before the loop; when `QuantAlgo` and
`GroupSize` hold 5 and -7, it is the plugin with `quant_algo = 5` and `group_size = -7`. -/
theorem createPlugin_missing_fields_counterexample :
    fieldValue "quant_algo" [⟨"type_id", 1, .kINT32⟩] = none ∧
    fieldValue "group_size" [⟨"type_id", 1, .kINT32⟩] = none ∧
    (∀ indeterminate, ∃ p,
      WeightOnlyGroupwiseQuantMatmulPluginCreator.createPlugin indeterminate
        [⟨"type_id", 1, .kINT32⟩] = .ok (some p)) ∧
    WeightOnlyGroupwiseQuantMatmulPluginCreator.createPlugin ⟨DataType.kFLOAT, 5, -7⟩
        [⟨"type_id", 1, .kINT32⟩]
      = .ok (some ⟨DataType.kHALF, 5, -7, 1, 2, 3, 3, 4, .FINEGRAINED_SCALE_ONLY, none⟩) := by
  refine ⟨rfl, rfl, ?_, rfl⟩
  intro indeterminate
  obtain ⟨p, hp⟩ := init_kHALF_isOk indeterminate.QuantAlgo indeterminate.GroupSize
  refine ⟨p, ?_⟩
  unfold WeightOnlyGroupwiseQuantMatmulPluginCreator.createPlugin
  rw [readFields_eq _ (by simp) indeterminate]
  have hv : fieldValue "type_id" [(⟨"type_id", 1, .kINT32⟩ : PluginField)] = some 1 := rfl
  have hq : fieldValue "quant_algo" [(⟨"type_id", 1, .kINT32⟩ : PluginField)] = none := rfl
  have hg : fieldValue "group_size" [(⟨"type_id", 1, .kINT32⟩ : PluginField)] = none := rfl
  rw [hv, hq, hg]
  simp only [Option.getD, construct]
  have hk : (⟨1⟩ : DataType) = DataType.kHALF := rfl
  rw [hk, hp]
  rfl

/-- C17, amended. For every field collection in which `type_id`, `quant_algo` and
`group_size` are all present, each of type `kINT32`, `createPlugin` constructs the plugin
from exactly the values of those fields (the last field of each name): the outcome does
not depend on the order of the fields, on fields of other names, or on what the locals
held before; a plugin is returned if the type is `kHALF`, with that type, those flags and
that group size, and the null pointer otherwise. -/
theorem createPlugin_of_present_fields
    (indeterminate : WeightOnlyGroupwiseQuantMatmulPluginCreator.Locals)
    (fc : List PluginField) (t qa gs : Int)
    (hint : ∀ f ∈ fc, f.name = "quant_algo" ∨ f.name = "group_size" ∨ f.name = "type_id" →
      f.type = PluginFieldType.kINT32)
    (ht : fieldValue "type_id" fc = some t) (hq : fieldValue "quant_algo" fc = some qa)
    (hg : fieldValue "group_size" fc = some gs) :
    WeightOnlyGroupwiseQuantMatmulPluginCreator.createPlugin indeterminate fc
      = tryCatch (construct ⟨t⟩ qa gs) ∧
    ((⟨t⟩ : DataType) = DataType.kHALF →
      ∃ p, WeightOnlyGroupwiseQuantMatmulPluginCreator.createPlugin indeterminate fc
          = .ok (some p) ∧
        p.mType = ⟨t⟩ ∧ p.mQuantAlgo = qa ∧ p.mGroupSize = gs) ∧
    ((⟨t⟩ : DataType) ≠ DataType.kHALF →
      WeightOnlyGroupwiseQuantMatmulPluginCreator.createPlugin indeterminate fc
        = .ok none) := by
  have hcreate : WeightOnlyGroupwiseQuantMatmulPluginCreator.createPlugin indeterminate fc
      = tryCatch (construct ⟨t⟩ qa gs) := by
    unfold WeightOnlyGroupwiseQuantMatmulPluginCreator.createPlugin
    rw [readFields_eq fc hint indeterminate, ht, hq, hg]
    rfl
  refine ⟨hcreate, ?_, ?_⟩
  · intro hty
    obtain ⟨p, hp⟩ := init_kHALF_isOk qa gs
    obtain ⟨-, h1, h2, h3, -⟩ := init_fields hp
    refine ⟨p, ?_, ?_, h2, h3⟩
    · rw [hcreate, hty]
      unfold construct
      rw [hp]
      rfl
    · rw [h1, hty]
  · intro hty
    rw [hcreate]
    unfold construct
    rw [init_error_of_ne hty]
    rfl

/-- C17, amended, at a collection with a field of another name and the three fields in the
order `group_size`, `type_id`, `quant_algo`: the plugin of `(kHALF, 7, 128)` is returned,
whatever the locals held before. -/
theorem createPlugin_of_present_fields_witness :
    ∃ p, WeightOnlyGroupwiseQuantMatmulPluginCreator.createPlugin ⟨DataType.kFLOAT, 5, -7⟩
        [⟨"layer_name", 9, .kCHAR⟩, ⟨"group_size", 128, .kINT32⟩, ⟨"type_id", 1, .kINT32⟩,
          ⟨"quant_algo", 7, .kINT32⟩] = .ok (some p) ∧
      p.mType = DataType.kHALF ∧ p.mQuantAlgo = 7 ∧ p.mGroupSize = 128 :=
  (createPlugin_of_present_fields ⟨DataType.kFLOAT, 5, -7⟩
    [⟨"layer_name", 9, .kCHAR⟩, ⟨"group_size", 128, .kINT32⟩, ⟨"type_id", 1, .kINT32⟩,
      ⟨"quant_algo", 7, .kINT32⟩] 1 7 128 (by simp) rfl rfl rfl).2.1 rfl

/-! ### C18 -/

/-- C18, as stated, fails. With `quant_algo = 0` no optional tensor is present and the
present tensors are the activations, the weights and the scales at the indices 0, 1, 2.
The index derived for the absent zeros is 2, the index of the scales, and not 3; the index
for the absent bias is 2 as well, and the index for the absent pre-quant scale is 0, the
index of the activations, and not 1. -/
theorem absent_index_counterexample :
    ∃ p, init DataType.kHALF 0 128 = .ok p ∧
      hasFlag 0 PRE_SCALE_QUANT = false ∧ hasFlag 0 ZER0 = false ∧ hasFlag 0 BIAS = false ∧
      presentInputIndices p = [0, 1, 2] ∧ p.mScalesInputIdx = 2 ∧
      p.mZerosInputIdx = 2 ∧ p.mZerosInputIdx ≠ 2 + 1 ∧
      p.mBiasesInputIdx = 2 ∧ p.mBiasesInputIdx ≠ 2 + 1 ∧
      p.mPreQuantScaleInputIdx = 0 ∧ p.mPreQuantScaleInputIdx ≠ 0 + 1 :=
  ⟨⟨DataType.kHALF, 0, 128, 0, 1, 2, 2, 2, .FINEGRAINED_SCALE_ONLY, none⟩, rfl, rfl, rfl, rfl,
    rfl, rfl, rfl, by decide, rfl, by decide, rfl, by decide⟩

/-- C18, amended. For every `quant_algo` and every optional tensor whose flag is unset, the
index that `init` derives for the absent tensor is the index of the last present tensor
that precedes it in the input order: 0, the activations, for the pre-quant scale;
`mScalesInputIdx` for the zeros; and for the bias `mZerosInputIdx`, which is the index of
the zeros when they are present and of the scales when they are not. -/
theorem absent_index_eq_preceding (type : DataType) (quant_algo group_size : Int)
    (p : WeightOnlyGroupwiseQuantMatmulPlugin)
    (h : init type quant_algo group_size = .ok p) :
    (hasFlag quant_algo PRE_SCALE_QUANT = false → p.mPreQuantScaleInputIdx = 0) ∧
    (hasFlag quant_algo ZER0 = false → p.mZerosInputIdx = p.mScalesInputIdx) ∧
    (hasFlag quant_algo BIAS = false →
      p.mBiasesInputIdx = p.mZerosInputIdx ∧
      p.mBiasesInputIdx
        = if hasFlag quant_algo ZER0 then p.mZerosInputIdx else p.mScalesInputIdx) := by
  obtain ⟨-, -, -, -, h1, -, -, h4, h5, -, -⟩ := init_fields h
  refine ⟨?_, ?_, ?_⟩
  · intro hf
    rw [h1, hf]
    rfl
  · intro hf
    rw [h4, hf]
    rfl
  · intro hf
    have hb : p.mBiasesInputIdx = p.mZerosInputIdx := by
      rw [h5, hf]
      rfl
    refine ⟨hb, ?_⟩
    rw [hb]
    cases hz : hasFlag quant_algo ZER0
    · rw [h4, hz]
      rfl
    · rfl

/-- C18, amended, at `quant_algo = 4` (only the pre-quant scale is present): the tensors are
at the indices 0, 1, 2, 3 and the indices of the absent zeros and bias are both 3, the
index of the scales. -/
theorem absent_index_eq_preceding_witness :
    ∃ p, init DataType.kHALF 4 128 = .ok p ∧ p.mScalesInputIdx = 3 ∧
      p.mZerosInputIdx = p.mScalesInputIdx ∧ p.mBiasesInputIdx = p.mZerosInputIdx := by
  have h := absent_index_eq_preceding DataType.kHALF 4 128
    ⟨DataType.kHALF, 4, 128, 1, 2, 3, 3, 3, .FINEGRAINED_SCALE_ONLY, none⟩ rfl
  exact ⟨_, rfl, rfl, h.2.1 rfl, (h.2.2 rfl).1⟩

/-! ### Facts about the bounds of the accesses -/

theorem getOutputDimensions_of_outputIndex_ne (p : WeightOnlyGroupwiseQuantMatmulPlugin)
    (outputIndex : Int) (inputs : List DimsExprs) (nbInputs : Int) (h : outputIndex ≠ 0) :
    getOutputDimensions p outputIndex inputs nbInputs = .ok ([], true) := by
  have hb : (outputIndex == 0) = false := by simpa using h
  by_cases hn : nbInputs = p.mBiasesInputIdx + 1
  · simp [getOutputDimensions, getOutputDimensionsTry, PLUGIN_ASSERT, hb, hn, bind,
      Except.bind]
  · exact getOutputDimensions_of_count_ne p outputIndex inputs nbInputs hn

/-- The method `getOutputDimensions` of a constructed plugin never reads out of bounds. -/
theorem getOutputDimensions_isOk (p : WeightOnlyGroupwiseQuantMatmulPlugin)
    (hp : Constructed p) (outputIndex : Int) (inputs : List DimsExprs) :
    ∃ res, getOutputDimensions p outputIndex inputs inputs.length = .ok res := by
  by_cases ho : outputIndex = 0
  · subst ho
    by_cases hn : (inputs.length : Int) = p.mBiasesInputIdx + 1
    · obtain ⟨h0, h1, h2, h3, h4⟩ := constructed_index_bounds hp
      obtain ⟨acts, ha⟩ := readAt_of_lt inputs 0 (le_refl 0) (by omega)
      obtain ⟨weights, hw⟩ := readAt_of_lt inputs p.mWeightInputIdx (by omega) (by omega)
      by_cases hgood : 2 ≤ acts.length ∧ weights.length = 2
      · obtain ⟨w1, hw1⟩ := readAt_of_lt weights 1 (by decide) (by omega)
        have htry := getOutputDimensionsTry_eq p inputs acts weights w1 hn ha hw hgood.1
          hgood.2 hw1
        exact ⟨(acts.take (acts.length - 1)
          ++ [DimExpr.constant (mulInt32 w1.getConstantValue 8)], false),
          by simp only [getOutputDimensions, htry]⟩
      · have hbad : acts.length < 2 ∨ weights.length ≠ 2 := by
          by_cases hr : 2 ≤ acts.length
          · exact Or.inr (fun h => hgood ⟨hr, h⟩)
          · exact Or.inl (by omega)
        have htry := getOutputDimensionsTry_rank_error p inputs acts weights hn ha hw hbad
        exact ⟨([], true), by simp only [getOutputDimensions, htry]⟩
    · exact ⟨_, getOutputDimensions_of_count_ne p 0 inputs _ hn⟩
  · exact ⟨_, getOutputDimensions_of_outputIndex_ne p outputIndex inputs _ ho⟩

/-! ### C19 -/

/-- C19. For every constructed plugin, whatever `int` its `quant_algo` is, the index 0 and
the five derived indices lie in `[0, mBiasesInputIdx]`; so in every list of
`mBiasesInputIdx + 1` elements the reads at these indices are within bounds;
`getOutputDimensions` never reads out of bounds, and when `nbInputs` is not
`mBiasesInputIdx + 1` it reports the error before any access, whatever the input list is;
and `enqueue` on a valid call runs without reading out of bounds. -/
theorem derived_indices_in_bounds (p : WeightOnlyGroupwiseQuantMatmulPlugin)
    (hp : Constructed p) :
    (∀ idx ∈ [0, p.mPreQuantScaleInputIdx, p.mWeightInputIdx, p.mScalesInputIdx,
        p.mZerosInputIdx, p.mBiasesInputIdx], 0 ≤ idx ∧ idx ≤ p.mBiasesInputIdx) ∧
    (∀ (α : Type) (xs : List α), (xs.length : Int) = p.mBiasesInputIdx + 1 →
      ∀ idx ∈ [0, p.mPreQuantScaleInputIdx, p.mWeightInputIdx, p.mScalesInputIdx,
        p.mZerosInputIdx, p.mBiasesInputIdx], ∃ x, readAt xs idx = .ok x) ∧
    (∀ outputIndex (inputs : List DimsExprs),
      ∃ res, getOutputDimensions p outputIndex inputs inputs.length = .ok res) ∧
    (∀ outputIndex (inputs : List DimsExprs) nbInputs, nbInputs ≠ p.mBiasesInputIdx + 1 →
      getOutputDimensions p outputIndex inputs nbInputs = .ok ([], true)) ∧
    (∀ SMALL_M_FAST_PATH rws inputDesc inputs outputs workspace,
      ValidEnqueueCall p inputDesc inputs outputs →
      ∃ r, enqueue SMALL_M_FAST_PATH rws p inputDesc inputs outputs workspace = .ok r) := by
  obtain ⟨h0, h1, h2, h3, h4⟩ := constructed_index_bounds hp
  have hbounds : ∀ idx ∈ [0, p.mPreQuantScaleInputIdx, p.mWeightInputIdx,
      p.mScalesInputIdx, p.mZerosInputIdx, p.mBiasesInputIdx],
      0 ≤ idx ∧ idx ≤ p.mBiasesInputIdx := by
    intro idx hidx
    simp only [List.mem_cons, List.mem_singleton, List.not_mem_nil, or_false] at hidx
    rcases hidx with h | h | h | h | h | h <;> subst h <;> constructor <;> omega
  refine ⟨hbounds, ?_, ?_, ?_, ?_⟩
  · intro α xs hlen idx hidx
    obtain ⟨hlo, hhi⟩ := hbounds idx hidx
    exact readAt_of_lt xs idx hlo (by omega)
  · intro outputIndex inputs
    exact getOutputDimensions_isOk p hp outputIndex inputs
  · intro outputIndex inputs nbInputs hne
    exact getOutputDimensions_of_count_ne p outputIndex inputs nbInputs hne
  · intro T rws inputDesc inputs outputs workspace hv
    obtain ⟨r, -, hr, -⟩ := enqueue_launch_args T rws p hp inputDesc inputs outputs workspace hv
    exact ⟨r, hr⟩

/-- C19 at `quant_algo = 15`, outside `[0, 8)`, where the three flag bits are set: the
indices are 1, 2, 3, 4, 5, and each of the positions 0 to 5 of a list of six buffers can be
read. -/
theorem derived_indices_in_bounds_witness :
    Constructed ⟨DataType.kHALF, 15, 128, 1, 2, 3, 4, 5, .FINEGRAINED_SCALE_AND_ZEROS, none⟩ ∧
    ∀ idx ∈ [(0 : Int), 1, 2, 3, 4, 5],
      ∃ x, readAt ([1000, 1500, 2000, 3000, 4000, 5000] : List Ptr) idx = .ok x :=
  have hc : Constructed
      ⟨DataType.kHALF, 15, 128, 1, 2, 3, 4, 5, .FINEGRAINED_SCALE_AND_ZEROS, none⟩ :=
    ⟨DataType.kHALF, 15, 128, rfl⟩
  ⟨hc, (derived_indices_in_bounds _ hc).2.1 Ptr [1000, 1500, 2000, 3000, 4000, 5000] rfl⟩

end TensorRTLLM
